import Mathlib

/-!
# go-http: a hand-written HTTP/1.1 server (`app/main.go`)

A shallow embedding of `handleConn`, `getHeader`, `postFile`, `getFile` and of the
standard-library functions they call, followed by theorems about them.

## Conventions

* A Go `string` or `[]byte` is a `Str`, a list of bytes.  Each `Char` stands for the
  byte with the same code (0 to 255); `len` is `List.length`.
* The connection's read side is the sequence of bytes that are still to arrive, ending
  in end-of-file.  `bufio.Reader.ReadString` and `bufio.Reader.Read` consume from it;
  all pending bytes count as available, so `Read` fills its buffer as far as the
  stream reaches.  A `Read` that returns fewer bytes than are still to come (at a
  segment boundary, or at the end of the 4096-byte buffer of `bufio.Reader`) is
  outside the model, and so is the memory a buffer of `Content-Length` bytes takes.
* A panic ends the run of `handleConn`; that an unrecovered panic of a goroutine ends
  the whole process is not modelled further.
* `conn.Write` appends one entry to the list of writes; the bytes on the wire are the
  concatenation of that list.  Return values of `conn.Write` are dropped by the source
  and so are absent here.  Diagnostics printed to standard error are not modelled.
* `int` is 64 bits wide.
-/

set_option autoImplicit false

namespace GoHttp

/-- A Go string or byte slice. -/
abbrev Str := List Char

instance : Coe String Str := ⟨String.toList⟩

/-! ## Package `strings` -/

/-- Go `strings.HasPrefix(s, p)`. -/
def hasPrefix (s p : Str) : Bool := p.isPrefixOf s

/-- Go `strings.Contains(s, sub)`: `sub` occurs in `s` as a contiguous block. -/
def contains : Str → Str → Bool
  | [], sub => sub.isEmpty
  | c :: cs, sub => hasPrefix (c :: cs) sub || contains cs sub

/-- Go `strings.TrimPrefix(s, p)`. -/
def trimPrefix (s p : Str) : Str :=
  if hasPrefix s p then s.drop p.length else s

/-- Go `strings.TrimLeft(s, cutset)` for a cutset of single-byte characters. -/
def trimLeft (s cutset : Str) : Str := s.dropWhile (fun c => cutset.elem c)

/-- Go `strings.TrimRight(s, cutset)` for a cutset of single-byte characters. -/
def trimRight (s cutset : Str) : Str :=
  (s.reverse.dropWhile (fun c => cutset.elem c)).reverse

/-- Go `strings.Trim(s, cutset)` for a cutset of single-byte characters. -/
def trim (s cutset : Str) : Str := trimRight (trimLeft s cutset) cutset

/-- The loop of `strings.Split(s, sep)` for a non-empty separator, scanning left to
right: `skip` counts the bytes still to step over of a separator that was just
matched, `cur` is the piece collected so far. -/
def splitAux (sep : Str) : Nat → Str → Str → List Str
  | _, [], cur => [cur]
  | skip + 1, _ :: cs, cur => splitAux sep skip cs cur
  | 0, c :: cs, cur =>
    if hasPrefix (c :: cs) sep then cur :: splitAux sep (sep.length - 1) cs []
    else splitAux sep 0 cs (cur ++ [c])

/-- Go `strings.Split(s, sep)` for a non-empty separator. -/
def split (s sep : Str) : List Str := splitAux sep 0 s []

/-- Go `strings.Join(elems, sep)`. -/
def join (elems : List Str) (sep : Str) : Str := sep.intercalate elems

/-- Width in bytes of the white-space character that starts the string, `0` when it
starts with none.  `strings.Fields` cuts at `unicode.IsSpace`: the six ASCII spaces
and, read as UTF-8, U+0085, U+00A0, U+1680, U+2000 to U+200A, U+2028, U+2029,
U+202F, U+205F and U+3000.  A lead byte of UTF-8 is never swallowed by the character
before it, so matching the encodings in place agrees with decoding from the start. -/
def spaceWidth : Str → Nat
  | [] => 0
  | c :: rest =>
    if c = ' ' ∨ c = '\t' ∨ c = '\n' ∨ c = Char.ofNat 11 ∨ c = Char.ofNat 12 ∨ c = '\r' then 1
    else
      match rest with
      | d :: e :: _ =>
        if c.toNat = 0xC2 ∧ (d.toNat = 0x85 ∨ d.toNat = 0xA0) then 2
        else if c.toNat = 0xE1 ∧ d.toNat = 0x9A ∧ e.toNat = 0x80 then 3
        else if c.toNat = 0xE2 ∧ d.toNat = 0x80 ∧
            ((0x80 ≤ e.toNat ∧ e.toNat ≤ 0x8A) ∨ e.toNat = 0xA8 ∨ e.toNat = 0xA9 ∨
              e.toNat = 0xAF) then 3
        else if c.toNat = 0xE2 ∧ d.toNat = 0x81 ∧ e.toNat = 0x9F then 3
        else if c.toNat = 0xE3 ∧ d.toNat = 0x80 ∧ e.toNat = 0x80 then 3
        else 0
      | [d] => if c.toNat = 0xC2 ∧ (d.toNat = 0x85 ∨ d.toNat = 0xA0) then 2 else 0
      | [] => 0

/-- The loop of `strings.Fields`: `skip` counts the remaining bytes of a multi-byte
space, `cur` is the field collected so far. -/
def fieldsAux : Nat → Str → Str → List Str
  | _, [], cur => if cur = [] then [] else [cur]
  | skip + 1, _ :: cs, cur => fieldsAux skip cs cur
  | 0, c :: cs, cur =>
    match spaceWidth (c :: cs) with
    | 0 => fieldsAux 0 cs (cur ++ [c])
    | w + 1 => (if cur = [] then [] else [cur]) ++ fieldsAux w cs []

/-- Go `strings.Fields(s)`. -/
def fields (s : Str) : List Str := fieldsAux 0 s []

/-- Go `strings.ToLower(s)` on the ASCII letters.  On input with a byte above 127 Go
lower-cases character by character through the Unicode tables; no character outside
ASCII lower-cases to one of `c`, `l`, `o`, `s`, `e`, so the test
`ToLower(v) == "close"`, the only use the source makes of it, has the same outcome. -/
def toLower (s : Str) : Str :=
  s.map (fun c => if 65 ≤ c.toNat ∧ c.toNat ≤ 90 then Char.ofNat (c.toNat + 32) else c)

/-! ## Package `strconv` -/

/-- Go `strconv.Itoa(n)` for a non-negative `n`. -/
def itoa (n : Nat) : Str := Nat.toDigits 10 n

/-- The value of a string of decimal digits, most significant first. -/
def digitsValue (ds : Str) : Nat := ds.foldl (fun acc c => 10 * acc + (c.toNat - 48)) 0

/-- Go `strconv.Atoi(s)`: an optional sign, then one or more decimal digits, the value
within the range of a 64-bit `int`; `none` stands for a non-nil error. -/
def atoi (s : Str) : Option Int :=
  let neg := s.head? = some '-'
  let ds := if s.head? = some '-' ∨ s.head? = some '+' then s.tail else s
  if ds = [] ∨ ¬ ds.all (fun c => decide (48 ≤ c.toNat ∧ c.toNat ≤ 57)) then none
  else
    let v : Int := if neg then - (digitsValue ds : Int) else (digitsValue ds : Int)
    if - (2 : Int) ^ 63 ≤ v ∧ v ≤ (2 : Int) ^ 63 - 1 then some v else none

/-! ## Package `slices` -/

/-- The loop of `slices.BinarySearchFunc`: while `i < j` probe `h = (i + j) / 2` and
move `i` past `h` when `cmp(x[h], target) < 0`, else move `j` down to `h`.  The
first argument bounds the number of rounds; `j - i` rounds always suffice. -/
def binarySearchLoop {α β : Type} (x : List α) (target : β) (cmp : α → β → Int) :
    Nat → Nat → Nat → Nat
  | 0, i, _ => i
  | fuel + 1, i, j =>
    if i < j then
      let h := (i + j) / 2
      match x[h]? with
      | some e =>
        if cmp e target < 0 then binarySearchLoop x target cmp fuel (h + 1) j
        else binarySearchLoop x target cmp fuel i h
      | none => i
    else i

/-- Go `slices.BinarySearchFunc(x, target, cmp)`: the position the loop ends at, and
whether the element there compares equal to the target. -/
def binarySearchFunc {α β : Type} (x : List α) (target : β) (cmp : α → β → Int) :
    Nat × Bool :=
  let n := x.length
  let i := binarySearchLoop x target cmp n 0 n
  (i, match x[i]? with
      | some e => cmp e target == 0
      | none => false)

/-! ## `getHeader` -/

/-- The comparison function the source passes to `slices.BinarySearchFunc`:
`0` when line `a` contains `b`, `-1` otherwise. -/
def cmpContains (a b : Str) : Int := if contains a b then 0 else -1

/-- Source `getHeader(header, contents)`. -/
def getHeader (header : Str) (contents : List Str) : Str :=
  let r := binarySearchFunc contents header cmpContains
  if !r.2 then []
  else
    let h := trimRight (contents.getD r.1 []) "\r\n"
    let hValue := trimPrefix h (header ++ ": ")
    if header = "Accept-Encoding" then
      let supported : List Str := ["gzip"]
      let encodings := split hValue ", "
      let tmp := encodings.filter (fun en => supported.contains (trim en " "))
      join tmp ", "
    else hValue

/-! ## The environment: `compress/gzip`, package `os` and the `-directory` flag -/

/-- An error returned by package `os`; `os.IsNotExist` holds of `notExist` only. -/
inductive OSError where
  | notExist
  | other
  deriving DecidableEq, Repr

/-- What the source takes from outside: the value of the `-directory` flag, the gzip
compressor, and the file operations of package `os` over a file-system state `σ`. -/
structure Env (σ : Type) where
  /-- Value of `*dir`. -/
  dir : Str
  /-- Writing `s` through a `gzip.Writer` into a buffer and closing it: the
  compressed bytes, or `none` when `Write` or `Close` reports an error. -/
  gzip : Str → Option Str
  /-- Go `os.Create(path)`. -/
  create : σ → Str → Except OSError σ
  /-- Go `file.Write(content)` on the file just created at `path`. -/
  write : σ → Str → Str → Except OSError σ
  /-- Go `os.ReadFile(path)`. -/
  readFile : σ → Str → Except OSError Str

/-- Source `gzipString(s)`. -/
def gzipString {σ : Type} (env : Env σ) (s : Str) : Option Str := env.gzip s

/-- Source `postFile(filename, content)`: the file system afterwards and the error
returned (`none` for `nil`). -/
def postFile {σ : Type} (env : Env σ) (st : σ) (filename content : Str) :
    σ × Option OSError :=
  match env.create st (env.dir ++ "/" ++ filename) with
  | .error e => (st, some e)
  | .ok st1 =>
    match env.write st1 (env.dir ++ "/" ++ filename) content with
    | .error e => (st1, some e)
    | .ok st2 => (st2, none)

/-- Source `getFile(filename)`. -/
def getFile {σ : Type} (env : Env σ) (st : σ) (filename : Str) : Except OSError Str :=
  env.readFile st (env.dir ++ "/" ++ filename)

/-! ## `handleConn` -/

/-- How one round of the request loop ends: the loop goes on, `handleConn` returns
(by `return`, or by `break` out of the loop), or the goroutine panics. -/
inductive Flow where
  | next
  | stop
  | panic
  deriving DecidableEq, Repr

/-- The effect of one round of the loop after the request lines were read. -/
structure Step (σ : Type) where
  /-- The `conn.Write` calls, in order. -/
  out : List Str
  /-- The file system afterwards. -/
  store : σ
  /-- The bytes of the stream not yet read. -/
  rest : Str
  /-- How the round ends. -/
  flow : Flow
  deriving DecidableEq

/-- Go `reader.ReadString('\n')`: the bytes up to and including the first line feed
and the stream after them, or `none` when the stream ends first (a non-nil error). -/
def readString : Str → Option (Str × Str)
  | [] => none
  | c :: cs =>
    if c = '\n' then some ([c], cs)
    else
      match readString cs with
      | none => none
      | some (l, r) => some (c :: l, r)

/-- Lines 65 to 76 of the source, the inner loop with `ReadString` unrolled byte by
byte: `line` holds the bytes of the line being read, `contents` the lines appended so
far.  A line equal to `"\r\n"` ends the loop with the lines read and the stream
after it; the end of the stream is the read error on which `handleConn` returns. -/
def readLines : Str → List Str → Str → Option (List Str × Str)
  | [], _, _ => none
  | c :: cs, contents, line =>
    if c = '\n' then
      if line ++ [c] = ("\r\n" : Str) then some (contents, cs)
      else readLines cs (contents ++ [line ++ [c]]) []
    else readLines cs contents (line ++ [c])

/-- The `/files/` case of the switch, lines 159 to 223, after `filename` was taken
from the path. -/
def serveFiles {σ : Type} (env : Env σ) (st : σ) (contents : List Str) (reader : Str)
    (method httpVersion filename : Str) (contentEncoding connClose : List Str)
    (after : Flow) : Step σ :=
  -- lines 161 to 185: the writes, and whether the switch was left by `break`
  let g : List Str × Bool :=
    if method = ("GET" : Str) then
      match getFile env st filename with
      | .error e =>
        if e = OSError.notExist then ([httpVersion ++ (" 404 Not Found\r\n\r\n" : Str)], true)
        else ([httpVersion ++ (" 500 Internal Server Error\r\n\r\n" : Str)], true)
      | .ok file =>
        ([httpVersion ++ (" 200 OK\r\n" : Str),
          ("Content-Type: application/octet-stream\r\n" : Str)]
          ++ contentEncoding ++ connClose
          ++ [("Content-Length: " : Str) ++ itoa file.length ++ ("\r\n\r\n" : Str), file],
         false)
    else ([], false)
  if g.2 then { out := g.1, store := st, rest := reader, flow := after }
  else if method = ("POST" : Str) then
    -- lines 188 to 198
    let r := binarySearchFunc contents ("Content-Length" : Str) cmpContains
    if !r.2 then
      { out := g.1 ++ [httpVersion ++ (" 400 Bad Request\r\n\r\n" : Str)],
        store := st, rest := reader, flow := after }
    else
      -- line 200: `strings.Fields(contents[i])[1]` panics when there is no second field
      match (fields (contents.getD r.1 []))[1]? with
      | none => { out := g.1, store := st, rest := reader, flow := Flow.panic }
      | some value =>
        match atoi value with
        | none =>
          { out := g.1 ++ [httpVersion ++ (" 400 Bad Request\r\n\r\n" : Str)],
            store := st, rest := reader, flow := after }
        | some contentLength =>
          -- line 207: `make([]byte, contentLength)` panics on a negative length
          if contentLength < 0 then
            { out := g.1, store := st, rest := reader, flow := Flow.panic }
          else
            -- line 208: `reader.Read(file)` fills a prefix of the zeroed buffer
            let got := reader.take contentLength.toNat
            let file := got ++ List.replicate (contentLength.toNat - got.length) (Char.ofNat 0)
            match postFile env st filename file with
            | (st1, some _) =>
              { out := g.1 ++ [httpVersion ++ (" 500 Internal Server Error\r\n\r\n" : Str)],
                store := st1, rest := reader.drop contentLength.toNat, flow := after }
            | (st1, none) =>
              { out := g.1 ++ [httpVersion ++ (" 201 Created\r\n\r\n" : Str)] ++ connClose,
                store := st1, rest := reader.drop contentLength.toNat, flow := after }
  else { out := g.1, store := st, rest := reader, flow := after }

/-- Lines 82 to 234 of the source: one request, given its lines `contents` (not
empty) and the stream `reader` after its blank line. -/
def serveRequest {σ : Type} (env : Env σ) (st : σ) (contents : List Str) (reader : Str) :
    Step σ :=
  let fs := fields (contents.headD [])
  if fs.length < 3 then
    { out := [("HTTP/1.1 400 Bad Request\r\n\r\n" : Str)], store := st, rest := reader,
      flow := Flow.stop }
  else
    let method := fs.getD 0 []
    let path := fs.getD 1 []
    let httpVersion := fs.getD 2 []
    let acceptedEnconding := getHeader ("Accept-Encoding" : Str) contents
    let shouldClose : Bool := toLower (getHeader ("Connection" : Str) contents) == ("close" : Str)
    -- lines 232 to 234
    let after : Flow := if shouldClose then Flow.stop else Flow.next
    let connClose : List Str := if shouldClose then [("Connection: close\r\n" : Str)] else []
    let contentEncoding : List Str :=
      if acceptedEnconding ≠ [] then
        [("Content-Encoding: " : Str) ++ acceptedEnconding ++ ("\r\n" : Str)]
      else []
    if path = ("/" : Str) then
      { out := [httpVersion ++ (" 200 OK\r\n\r\n" : Str)] ++ connClose,
        store := st, rest := reader, flow := after }
    else if hasPrefix path ("/echo/" : Str) then
      match (split path ("/" : Str))[2]? with
      | none => { out := [], store := st, rest := reader, flow := Flow.panic }
      | some str =>
        -- lines 110 to 119: what is written on a compression error, and `res`
        let enc : List Str × Str :=
          if contains acceptedEnconding ("gzip" : Str) then
            match gzipString env str with
            | none => ([httpVersion ++ (" 500 Internal Server Error\r\n\r\n" : Str)], [])
            | some gz => ([], gz)
          else ([], str)
        { out := enc.1 ++ [httpVersion ++ (" 200 OK\r\n" : Str),
            ("Content-Type: text/plain\r\n" : Str)]
            ++ contentEncoding ++ connClose
            ++ [("Content-Length: " : Str) ++ itoa enc.2.length ++ ("\r\n\r\n" : Str), enc.2],
          store := st, rest := reader, flow := after }
    else if hasPrefix path ("/user-agent" : Str) then
      let userAgent := getHeader ("User-Agent" : Str) contents
      if userAgent = [] then
        { out := [httpVersion ++ (" 400 Bad Request\r\n\r\n" : Str)],
          store := st, rest := reader, flow := after }
      else
        { out := [httpVersion ++ (" 200 OK\r\n" : Str), ("Content-Type: text/plain\r\n" : Str)]
            ++ contentEncoding ++ connClose
            ++ [("Content-Length: " : Str) ++ itoa userAgent.length ++ ("\r\n\r\n" : Str),
                userAgent],
          store := st, rest := reader, flow := after }
    else if hasPrefix path ("/files/" : Str) then
      match (split path ("/" : Str))[2]? with
      | none => { out := [], store := st, rest := reader, flow := Flow.panic }
      | some filename =>
        serveFiles env st contents reader method httpVersion filename contentEncoding
          connClose after
    else
      { out := [httpVersion ++ (" 404 Not Found\r\n\r\n" : Str)] ++ connClose,
        store := st, rest := reader, flow := after }

/-- How `handleConn` ends: it returns and the deferred `conn.Close()` runs, or the
goroutine panics; `outOfFuel` marks a run cut short by the round bound of
`serveLoop` and never shows up in `handleConn`. -/
inductive Exit where
  | returned
  | panicked
  | outOfFuel
  deriving DecidableEq, Repr

/-- What a run of `handleConn` leaves behind. -/
structure Session (σ : Type) where
  /-- The `conn.Write` calls, in order. -/
  out : List Str
  /-- The file system afterwards. -/
  store : σ
  /-- The bytes of the stream that were never read. -/
  unread : Str
  /-- How the run ended. -/
  exit : Exit
  deriving DecidableEq

/-- The outer loop of `handleConn`, lines 64 to 235, bounded by a number of rounds. -/
def serveLoop {σ : Type} (env : Env σ) : Nat → σ → Str → Session σ
  | 0, st, reader => { out := [], store := st, unread := reader, exit := Exit.outOfFuel }
  | fuel + 1, st, reader =>
    match readLines reader [] [] with
    | none => { out := [], store := st, unread := [], exit := Exit.returned }
    | some (contents, rest) =>
      if contents = [] then { out := [], store := st, unread := rest, exit := Exit.returned }
      else
        let s := serveRequest env st contents rest
        match s.flow with
        | Flow.stop => { out := s.out, store := s.store, unread := s.rest, exit := Exit.returned }
        | Flow.panic => { out := s.out, store := s.store, unread := s.rest, exit := Exit.panicked }
        | Flow.next =>
          let t := serveLoop env fuel s.store s.rest
          { out := s.out ++ t.out, store := t.store, unread := t.unread, exit := t.exit }

/-- Source `handleConn(conn)` on a connection whose read side delivers `input` and
then ends.  Every round reads at least one byte, so `input.length + 1` rounds are
never used up. -/
def handleConn {σ : Type} (env : Env σ) (st : σ) (input : Str) : Session σ :=
  serveLoop env (input.length + 1) st input

/-! ## A file store that is a map from path to bytes -/

/-- The file store as a map from path to content. -/
abbrev FileMap := List (Str × Str)

/-- Content stored under `path`, if any. -/
def FileMap.find (m : FileMap) (path : Str) : Option Str :=
  match m with
  | [] => none
  | (k, v) :: rest => if k = path then some v else FileMap.find rest path

/-- The map with `path` bound to `content`, replacing an earlier binding. -/
def FileMap.insert (m : FileMap) (path content : Str) : FileMap :=
  (path, content) :: m.filter (fun kv => decide (kv.1 ≠ path))

/-- The environment over a `FileMap`: creating and writing always succeed, reading
fails with `notExist` exactly on a path without entry; `gz` is the compressor. -/
def mapEnv (dir : Str) (gz : Str → Option Str) : Env FileMap where
  dir := dir
  gzip := gz
  create := fun m path => Except.ok (m.insert path [])
  write := fun m path content => Except.ok (m.insert path content)
  readFile := fun m path =>
    match m.find path with
    | some v => Except.ok v
    | none => Except.error OSError.notExist

/-! ## Vocabulary of the statements -/

/-- A line as `ReadString('\n')` returns it without error: it ends in a line feed
and holds no other line feed. -/
def isLine (l : Str) : Bool :=
  match l.reverse with
  | [] => false
  | c :: body => c == '\n' && !body.elem '\n'

/-- Cuts the bytes of a response at its first blank line: what stands before the
first `"\r\n\r\n"` (the status line and the header lines) and what stands after it
(the body); `none` when the bytes hold no blank line. -/
def splitHeadBody : Str → Option (Str × Str)
  | [] => none
  | c :: cs =>
    if hasPrefix (c :: cs) ("\r\n\r\n" : Str) then some ([], cs.drop 3)
    else
      match splitHeadBody cs with
      | none => none
      | some (h, b) => some (c :: h, b)

/-- The header lines of a response head: its lines after the status line. -/
def headerLines (head : Str) : List Str := (split head ("\r\n" : Str)).tail

/-- The bytes of a response made of the given lines (the status line first), a blank
line and the body. -/
def render (lines : List Str) (body : Str) : Str :=
  (lines.map (fun l => l ++ ("\r\n" : Str))).flatten ++ (("\r\n" : Str) ++ body)

/-- The framing property of the writes of one response: cut at the first blank line,
every header line named `Content-Length` carries the decimal length of the body. -/
def Framed (out : List Str) : Prop :=
  ∀ head body line, splitHeadBody out.flatten = some (head, body) →
    line ∈ headerLines head → hasPrefix line ("Content-Length:" : Str) = true →
    line = ("Content-Length: " : Str) ++ itoa body.length

/-- Whether the request declares a body to the handler: only for a `POST` on a path
with prefix `/files/` in which the search locates a `Content-Length` line does the
handler go on to the body (`reader.Read`). -/
def readsBody (contents : List Str) : Bool :=
  (fields (contents.headD [])).getD 0 [] == ("POST" : Str) &&
    hasPrefix ((fields (contents.headD [])).getD 1 []) ("/files/" : Str) &&
    (binarySearchFunc contents ("Content-Length" : Str) cmpContains).2

/-- The value of a header line for the header `name`, as `getHeader` takes it: the
line without its trailing carriage returns and line feeds and without the prefix
`name: `. -/
def headerValue (name line : Str) : Str :=
  trimPrefix (trimRight line ("\r\n" : Str)) (name ++ (": " : Str))

/-- Whether a token is `gzip` with nothing but spaces before it and after it: the
tokens that equal `gzip` after trimming spaces, read off byte by byte. -/
def isGzipToken : Str → Bool
  | [] => false
  | c :: t =>
    if c = ' ' then isGzipToken t
    else (c :: t).take 4 == ("gzip" : Str) && ((c :: t).drop 4).all (fun d => d == ' ')

/-- A stand-in for the gzip compressor in concrete runs: a two-byte mark put in front
of the data. -/
def markCompress (s : Str) : Str := 'G' :: 'Z' :: s

/-- The environment of the concrete runs: a `FileMap` for the files under directory
`/tmp`, compression by `markCompress`. -/
def demoEnv : Env FileMap := mapEnv ("/tmp" : Str) (fun s => some (markCompress s))

/-! ## Lemmas on the string functions -/

theorem hasPrefix_iff (s p : Str) : hasPrefix s p = true ↔ p <+: s := by
  simp [hasPrefix]

theorem contains_iff (s sub : Str) : contains s sub = true ↔ sub <:+: s := by
  induction s with
  | nil => simp [contains, List.isEmpty_iff]
  | cons c cs ih =>
    simp only [contains, Bool.or_eq_true, hasPrefix_iff, ih, List.infix_cons_iff]

theorem contains_eq_false_iff (s sub : Str) : contains s sub = false ↔ ¬ sub <:+: s := by
  rw [← contains_iff]; simp

theorem isLine_iff (l : Str) :
    isLine l = true ↔ ∃ body, l = body ++ ['\n'] ∧ '\n' ∉ body := by
  unfold isLine
  constructor
  · intro h
    split at h
    · simp at h
    · rename_i c body hrev
      simp at h
      refine ⟨body.reverse, ?_, by simpa using h.2⟩
      have := congrArg List.reverse hrev
      simp at this
      rw [this, h.1]
  · rintro ⟨body, rfl, hb⟩
    simp [hb]

theorem trimRight_isPrefix (s cutset : Str) : trimRight s cutset <+: s := by
  unfold trimRight
  have h := List.dropWhile_suffix (fun c => cutset.elem c) (l := s.reverse)
  have := List.reverse_prefix.2 h
  simpa using this

theorem trimLeft_isSuffix (s cutset : Str) : trimLeft s cutset <:+ s :=
  List.dropWhile_suffix _

theorem trim_isInfix (s cutset : Str) : trim s cutset <:+: s :=
  (trimRight_isPrefix _ _).isInfix.trans (trimLeft_isSuffix _ _).isInfix

theorem trimPrefix_isSuffix (s p : Str) : trimPrefix s p <:+ s := by
  unfold trimPrefix
  split
  · exact List.drop_suffix _ _
  · exact List.suffix_refl _

theorem splitAux_isInfix (sep : Str) (k : Nat) (s cur : Str) (h : k = 0 ∨ cur = []) :
    ∀ piece ∈ splitAux sep k s cur, piece <:+: s ∨ ∃ t, piece = cur ++ t ∧ t <+: s := by
  induction s generalizing k cur with
  | nil =>
    intro piece hp
    cases k <;> simp [splitAux] at hp <;> exact Or.inr ⟨[], by simp [hp], List.prefix_refl _⟩
  | cons c cs ih =>
    intro piece hp
    cases k with
    | succ k =>
      have hcur : cur = [] := by simpa using h
      subst hcur
      simp only [splitAux] at hp
      rcases ih k [] (Or.inr rfl) piece hp with h1 | ⟨t, rfl, ht⟩
      · exact Or.inl (h1.trans (List.suffix_cons c cs).isInfix)
      · exact Or.inl (by simpa using ht.isInfix.trans (List.suffix_cons c cs).isInfix)
    | zero =>
      simp only [splitAux] at hp
      split at hp
      · rcases List.mem_cons.1 hp with rfl | hp
        · exact Or.inr ⟨[], by simp, List.nil_prefix⟩
        · rcases ih _ [] (Or.inr rfl) piece hp with h1 | ⟨t, rfl, ht⟩
          · exact Or.inl (h1.trans (List.suffix_cons c cs).isInfix)
          · exact Or.inl (by simpa using ht.isInfix.trans (List.suffix_cons c cs).isInfix)
      · rcases ih 0 (cur ++ [c]) (Or.inl rfl) piece hp with h1 | ⟨t, rfl, ht⟩
        · exact Or.inl (h1.trans (List.suffix_cons c cs).isInfix)
        · exact Or.inr ⟨c :: t, by simp, by simpa using ht⟩

theorem split_isInfix (s sep piece : Str) (hp : piece ∈ split s sep) : piece <:+: s := by
  rcases splitAux_isInfix sep 0 s [] (Or.inl rfl) piece hp with h | ⟨t, rfl, ht⟩
  · exact h
  · simpa using ht.isInfix

/-- The position `slices.BinarySearchFunc` reports as found holds an element that
compares equal. -/
theorem binarySearchFunc_found {α β : Type} (x : List α) (target : β) (cmp : α → β → Int)
    (h : (binarySearchFunc x target cmp).2 = true) :
    ∃ e, x[(binarySearchFunc x target cmp).1]? = some e ∧ cmp e target = 0 := by
  unfold binarySearchFunc at h ⊢
  simp only at h ⊢
  split at h
  · rename_i e he
    exact ⟨e, he, by simpa using h⟩
  · simp at h

theorem getHeader_acceptEncoding_nil (contents : List Str)
    (h : ∀ l ∈ contents, contains l ("Accept-Encoding" : Str) = true →
      contains l ("gzip" : Str) = false) :
    getHeader ("Accept-Encoding" : Str) contents = [] := by
  simp only [getHeader]
  cases hfound : (binarySearchFunc contents ("Accept-Encoding" : Str) cmpContains).2 with
  | false => simp
  | true =>
    obtain ⟨e, he, hcmp⟩ := binarySearchFunc_found contents _ cmpContains hfound
    have hmem : e ∈ contents := List.getElem?_mem he
    have hc : contains e ("Accept-Encoding" : Str) = true := by
      unfold cmpContains at hcmp
      split at hcmp
      · assumption
      · simp at hcmp
    have hg := (contains_eq_false_iff _ _).1 (h e hmem hc)
    have hgetD : contents.getD
        (binarySearchFunc contents ("Accept-Encoding" : Str) cmpContains).1 [] = e := by
      rw [List.getD_eq_getElem?_getD, he]; rfl
    rw [hgetD]
    have hfil : ∀ en ∈ split (trimPrefix (trimRight e ("\r\n" : Str))
        (("Accept-Encoding" : Str) ++ (": " : Str))) (", " : Str),
        ¬ (([("gzip" : Str)] : List Str).contains (trim en (" " : Str)) = true) := by
      intro en hen hcon
      have heq : trim en (" " : Str) = ("gzip" : Str) := by simpa using hcon
      apply hg
      have h1 : ("gzip" : Str) <:+: en := heq ▸ trim_isInfix en _
      exact ((h1.trans (split_isInfix _ _ _ hen)).trans (trimPrefix_isSuffix _ _).isInfix).trans
        (trimRight_isPrefix _ _).isInfix
    rw [List.filter_eq_nil_iff.2 hfil]
    rfl


theorem splitAux_slash_head (s cur : Str) :
    (splitAux ("/" : Str) 0 s cur)[0]? = some (cur ++ s.takeWhile (fun c => c != '/')) := by
  induction s generalizing cur with
  | nil => simp [splitAux]
  | cons c cs ih =>
    by_cases hc : c = '/'
    · subst hc
      simp [splitAux, hasPrefix]
    · have hc2 : ¬ '/' = c := fun h => hc h.symm
      have hp : hasPrefix (c :: cs) ['/'] = false := by
        simp [hasPrefix, List.isPrefixOf, hc2]
      have ih2 := ih (cur ++ [c])
      simp only [String.toList] at ih2 ⊢
      simp [splitAux, hp, ih2, hc]

theorem split_echo (s : Str) :
    (split (("/echo/" : Str) ++ s) ("/" : Str))[2]? = some (s.takeWhile (fun c => c != '/')) := by
  have := splitAux_slash_head s []
  simp only [String.toList] at this
  simp [split, splitAux, hasPrefix, this]

theorem split_files (s : Str) :
    (split (("/files/" : Str) ++ s) ("/" : Str))[2]? = some (s.takeWhile (fun c => c != '/')) := by
  have := splitAux_slash_head s []
  simp only [String.toList] at this
  simp [split, splitAux, hasPrefix, this]


theorem echo_ne_root (s : Str) : (("/echo/" : Str) ++ s) ≠ ("/" : Str) := by
  intro h
  have := congrArg List.length h
  simp at this

theorem hasPrefix_append (p s : Str) : hasPrefix (p ++ s) p = true := by
  simp [hasPrefix]

theorem spaceWidth_cr (cs : Str) : spaceWidth ('\r' :: cs) = 1 := by
  simp [spaceWidth]

theorem fieldsAux_no_cr (k : Nat) (s cur : Str) (hcur : '\r' ∉ cur) :
    ∀ f ∈ fieldsAux k s cur, '\r' ∉ f := by
  induction s generalizing k cur with
  | nil =>
    intro f hf
    cases k <;>
    · simp only [fieldsAux] at hf
      split at hf
      · simp at hf
      · simp at hf; rw [hf]; exact hcur
  | cons c cs ih =>
    intro f hf
    cases k with
    | succ k =>
      simp only [fieldsAux] at hf
      exact ih k cur hcur f hf
    | zero =>
      simp only [fieldsAux] at hf
      split at hf
      · rename_i hw
        have hc : c ≠ '\r' := by
          intro h
          rw [h, spaceWidth_cr] at hw
          exact absurd hw (by decide)
        refine ih 0 (cur ++ [c]) ?_ f hf
        simp [hcur, hc.symm]
      · rename_i w hw
        rcases List.mem_append.1 hf with h1 | h1
        · split at h1
          · simp at h1
          · simp at h1; rw [h1]; exact hcur
        · exact ih w [] (by simp) f h1

theorem fields_no_cr (s : Str) : ∀ f ∈ fields s, '\r' ∉ f :=
  fieldsAux_no_cr 0 s [] (by simp)

theorem version_no_cr (s : Str) (i : Nat) : '\r' ∉ (fields s).getD i [] := by
  rw [List.getD_eq_getElem?_getD]
  cases h : (fields s)[i]? with
  | none => simp
  | some f => exact fields_no_cr s f (List.getElem?_mem h)

theorem digitChar_ne_cr (k : Nat) (hk : k < 10) : Nat.digitChar k ≠ '\r' := by
  interval_cases k <;> decide

theorem toDigitsCore_no_cr (f n : Nat) (ds : List Char) (hds : '\r' ∉ ds) :
    '\r' ∉ Nat.toDigitsCore 10 f n ds := by
  induction f generalizing n ds with
  | zero => simpa [Nat.toDigitsCore] using hds
  | succ f ih =>
    have hd : '\r' ∉ Nat.digitChar (n % 10) :: ds := by
      intro h
      rcases List.mem_cons.1 h with h | h
      · exact digitChar_ne_cr _ (Nat.mod_lt _ (by decide)) h.symm
      · exact hds h
    simp only [Nat.toDigitsCore]
    split
    · exact hd
    · exact ih _ _ hd

theorem itoa_no_cr (n : Nat) : '\r' ∉ itoa n :=
  toDigitsCore_no_cr (n + 1) n [] (by simp)

theorem itoa_ne_nil (n : Nat) : itoa n ≠ [] := by
  unfold itoa Nat.toDigits
  intro h
  have := congrArg List.length h
  rw [Nat.toDigitsCore] at this
  split at this
  · simp at this
  · rw [Nat.toDigitsCore_lens_eq] at this
    simp at this


theorem mem_trimLeft (s cutset : Str) (c : Char) (hc : c ∈ s) :
    c ∈ cutset ∨ c ∈ trimLeft s cutset := by
  unfold trimLeft
  rw [← List.takeWhile_append_dropWhile (fun c => cutset.elem c) s] at hc
  rcases List.mem_append.1 hc with h | h
  · left
    have := List.mem_takeWhile_imp h
    simpa using this
  · exact Or.inr h

theorem mem_trimRight (s cutset : Str) (c : Char) (hc : c ∈ s) :
    c ∈ cutset ∨ c ∈ trimRight s cutset := by
  unfold trimRight
  have hc2 : c ∈ s.reverse := List.mem_reverse.2 hc
  rw [← List.takeWhile_append_dropWhile (fun c => cutset.elem c) s.reverse] at hc2
  rcases List.mem_append.1 hc2 with h | h
  · left
    have := List.mem_takeWhile_imp h
    simpa using this
  · exact Or.inr (List.mem_reverse.2 h)

theorem mem_trim (s cutset : Str) (c : Char) (hc : c ∈ s) :
    c ∈ cutset ∨ c ∈ trim s cutset := by
  unfold trim
  rcases mem_trimLeft s cutset c hc with h | h
  · exact Or.inl h
  · exact mem_trimRight _ cutset c h

theorem mem_join (xs : List Str) (sep : Str) (c : Char) (hc : c ∈ join xs sep) :
    c ∈ sep ∨ ∃ x ∈ xs, c ∈ x := by
  unfold join List.intercalate at hc
  induction xs with
  | nil => simp at hc
  | cons x xs ih =>
    cases xs with
    | nil =>
      simp at hc
      exact Or.inr ⟨x, by simp, hc⟩
    | cons y ys =>
      simp only [List.intersperse, List.flatten_cons, List.mem_append] at hc
      rcases hc with h | h | h
      · exact Or.inr ⟨x, by simp, h⟩
      · exact Or.inl h
      · rcases ih (by simpa [List.intersperse] using h) with h2 | ⟨z, hz, hcz⟩
        · exact Or.inl h2
        · exact Or.inr ⟨z, List.mem_cons_of_mem _ hz, hcz⟩

theorem getHeader_acceptEncoding_no_cr (contents : List Str) :
    '\r' ∉ getHeader ("Accept-Encoding" : Str) contents := by
  simp only [getHeader]
  split
  · simp
  · rw [if_pos trivial]
    intro hc
    rcases mem_join _ _ _ hc with h | ⟨en, hen, hcen⟩
    · revert h; decide
    · have hen2 := (List.mem_filter.1 hen).2
      have heq : trim en (" " : Str) = ("gzip" : Str) := by simpa using hen2
      rcases mem_trim en (" " : Str) _ hcen with h | h
      · revert h; decide
      · rw [heq] at h
        revert h; decide

/-! ## Lemmas on cutting a response into head and body -/

theorem crlf_eq : ("\r\n" : Str) = ['\r', '\n'] := rfl
theorem crlf2_eq : ("\r\n\r\n" : Str) = ['\r', '\n', '\r', '\n'] := rfl

theorem splitHeadBody_cons (c : Char) (cs : Str) (hc : c ≠ '\r') :
    splitHeadBody (c :: cs) = (splitHeadBody cs).map (fun p => (c :: p.1, p.2)) := by
  have hc2 : ¬ '\r' = c := fun h => hc h.symm
  have hp : hasPrefix (c :: cs) ['\r', '\n', '\r', '\n'] = false := by
    simp [hasPrefix, List.isPrefixOf, hc2]
  simp only [splitHeadBody, crlf2_eq, hp]
  cases h : splitHeadBody cs <;> simp

theorem splitHeadBody_append (a rest : Str) (ha : '\r' ∉ a) :
    splitHeadBody (a ++ rest) = (splitHeadBody rest).map (fun p => (a ++ p.1, p.2)) := by
  induction a with
  | nil => simp
  | cons c cs ih =>
    have hc : c ≠ '\r' := fun h => ha (List.mem_cons.2 (Or.inl h.symm))
    have hcs : '\r' ∉ cs := fun h => ha (List.mem_cons_of_mem _ h)
    rw [List.cons_append, splitHeadBody_cons _ _ hc, ih hcs]
    cases h : splitHeadBody rest <;> simp

theorem splitHeadBody_blank (body : Str) :
    splitHeadBody (("\r\n\r\n" : Str) ++ body) = some ([], body) := by
  simp [splitHeadBody, hasPrefix]

theorem splitHeadBody_crlf (l rest : Str) (hl : l ≠ []) (hr : '\r' ∉ l) :
    splitHeadBody (("\r\n" : Str) ++ (l ++ rest)) =
      (splitHeadBody (l ++ rest)).map (fun p => (("\r\n" : Str) ++ p.1, p.2)) := by
  cases l with
  | nil => exact absurd rfl hl
  | cons c cs =>
    have hc : ¬ '\r' = c := fun h => hr (List.mem_cons.2 (Or.inl h))
    have hp : hasPrefix ('\r' :: '\n' :: c :: (cs ++ rest)) ['\r', '\n', '\r', '\n'] = false := by
      simp [hasPrefix, List.isPrefixOf, hc]
    have h2 := splitHeadBody_cons '\n' (c :: (cs ++ rest)) (by decide)
    rw [crlf_eq]
    simp only [List.cons_append, List.nil_append]
    rw [splitHeadBody, crlf2_eq, hp]
    simp only [Bool.false_eq_true, if_false]
    rw [h2]
    cases h : splitHeadBody (c :: (cs ++ rest)) <;> simp

theorem splitHeadBody_render (l : Str) (lines : List Str) (body : Str)
    (h : ∀ x ∈ l :: lines, x ≠ [] ∧ '\r' ∉ x) :
    splitHeadBody (render (l :: lines) body) = some (join (l :: lines) ("\r\n" : Str), body) := by
  induction lines generalizing l with
  | nil =>
    have hl := h l (by simp)
    have := splitHeadBody_append l (("\r\n\r\n" : Str) ++ body) hl.2
    rw [splitHeadBody_blank] at this
    simpa [render, join, List.intercalate] using this
  | cons l2 ls ih =>
    have hl := h l (by simp)
    have hl2 := h l2 (by simp)
    have ih2 := ih l2 (fun x hx => h x (List.mem_cons_of_mem _ hx))
    have e1 : render (l :: l2 :: ls) body = l ++ (("\r\n" : Str) ++ (l2 ++ (("\r\n" : Str) ++
        ((ls.map (fun l => l ++ ("\r\n" : Str))).flatten ++ (("\r\n" : Str) ++ body))))) := by
      simp [render]
    have e2 : render (l2 :: ls) body = (l2 ++ (("\r\n" : Str) ++
        ((ls.map (fun l => l ++ ("\r\n" : Str))).flatten ++ (("\r\n" : Str) ++ body)))) := by
      simp [render]
    rw [e1, splitHeadBody_append _ _ hl.2, splitHeadBody_crlf _ _ hl2.1 hl2.2, ← e2, ih2]
    simp [join, List.intercalate]


theorem splitAux_crlf_append (a s cur : Str) (ha : '\r' ∉ a) :
    splitAux ("\r\n" : Str) 0 (a ++ s) cur = splitAux ("\r\n" : Str) 0 s (cur ++ a) := by
  induction a generalizing cur with
  | nil => simp
  | cons c cs ih =>
    have hc : ¬ '\r' = c := fun h => ha (List.mem_cons.2 (Or.inl h))
    have hcs : '\r' ∉ cs := fun h => ha (List.mem_cons_of_mem _ h)
    have hp : hasPrefix (c :: (cs ++ s)) ['\r', '\n'] = false := by
      simp [hasPrefix, List.isPrefixOf, hc]
    rw [List.cons_append, crlf_eq, splitAux, hp]
    simp only [Bool.false_eq_true, if_false]
    rw [← crlf_eq, ih _ hcs]
    simp

theorem splitAux_crlf_sep (s cur : Str) :
    splitAux ("\r\n" : Str) 0 (("\r\n" : Str) ++ s) cur = cur :: splitAux ("\r\n" : Str) 0 s [] := by
  simp [splitAux, hasPrefix]

theorem split_join_crlf (l : Str) (lines : List Str) (h : ∀ x ∈ l :: lines, '\r' ∉ x) :
    split (join (l :: lines) ("\r\n" : Str)) ("\r\n" : Str) = l :: lines := by
  unfold split
  induction lines generalizing l with
  | nil =>
    have := splitAux_crlf_append l [] [] (h l (by simp))
    simpa [join, List.intercalate, splitAux] using this
  | cons l2 ls ih =>
    have e : join (l :: l2 :: ls) ("\r\n" : Str) = l ++ (("\r\n" : Str) ++ join (l2 :: ls) ("\r\n" : Str)) := by
      simp [join, List.intercalate]
    rw [e, splitAux_crlf_append _ _ _ (h l (by simp)), splitAux_crlf_sep,
      ih l2 (fun x hx => h x (List.mem_cons_of_mem _ hx))]
    simp

theorem framed_nil : Framed [] := by
  intro head body line h
  simp [splitHeadBody] at h

theorem framed_render (out : List Str) (l : Str) (lines : List Str) (body : Str)
    (hout : out.flatten = render (l :: lines) body)
    (h : ∀ x ∈ l :: lines, x ≠ [] ∧ '\r' ∉ x)
    (hcl : ∀ line ∈ lines, hasPrefix line ("Content-Length:" : Str) = true →
      line = ("Content-Length: " : Str) ++ itoa body.length) :
    Framed out := by
  intro head body2 line hs hl hp
  rw [hout, splitHeadBody_render l lines body h] at hs
  simp only [Option.some.injEq, Prod.mk.injEq] at hs
  obtain ⟨rfl, rfl⟩ := hs
  rw [headerLines, split_join_crlf l lines (fun x hx => (h x hx).2)] at hl
  exact hcl line hl hp

/-! ## Lemmas on reading the request lines -/

theorem readLines_body (body : Str) (hb : '\n' ∉ body) (rest : Str) (contents : List Str)
    (pre : Str) :
    readLines (body ++ '\n' :: rest) contents pre =
      if pre ++ body ++ ['\n'] = ("\r\n" : Str) then some (contents, rest)
      else readLines rest (contents ++ [pre ++ body ++ ['\n']]) [] := by
  induction body generalizing pre with
  | nil => simp [readLines]
  | cons c cs ih =>
    have hc : c ≠ '\n' := fun h => hb (by simp [h])
    have hcs : '\n' ∉ cs := fun h => hb (by simp [h])
    simp [readLines, hc, ih hcs]

theorem readLines_line (l : Str) (hl : isLine l = true) (rest : Str) (contents : List Str) :
    readLines (l ++ rest) contents [] =
      if l = ("\r\n" : Str) then some (contents, rest)
      else readLines rest (contents ++ [l]) [] := by
  obtain ⟨body, rfl, hb⟩ := (isLine_iff l).1 hl
  have := readLines_body body hb rest contents []
  simpa using this

theorem readLines_lines (ls : List Str)
    (hls : ∀ l ∈ ls, isLine l = true ∧ l ≠ ("\r\n" : Str))
    (rest : Str) (contents : List Str) :
    readLines (ls.flatten ++ (("\r\n" : Str) ++ rest)) contents [] =
      some (contents ++ ls, rest) := by
  induction ls generalizing contents with
  | nil => simp [readLines]
  | cons l ls ih =>
    have h1 := hls l (by simp)
    have h2 : ∀ l ∈ ls, isLine l = true ∧ l ≠ ("\r\n" : Str) :=
      fun x hx => hls x (by simp [hx])
    rw [List.flatten_cons, List.append_assoc, readLines_line l h1.1, if_neg h1.2, ih h2]
    simp

/-! ## Lemmas on the framing of responses -/

theorem framed_status (v lit text : Str) (extra : List Str) (hv : '\r' ∉ v)
    (hlit : lit = text ++ ("\r\n\r\n" : Str)) (ht : '\r' ∉ text) (hne : text ≠ []) :
    Framed ((v ++ lit) :: extra) := by
  refine framed_render _ (v ++ text) [] extra.flatten ?_ ?_ ?_
  · subst hlit
    simp [render]
  · intro x hx
    have hx2 : x = v ++ text := by simpa using hx
    subst hx2
    refine ⟨?_, ?_⟩
    · simp [hne]
    · simp [hv, ht]
  · intro line hl
    simp at hl

theorem framed_full (v ctLit ct ae body : Str) (sc : Bool) (hv : '\r' ∉ v)
    (hct : ctLit = ct ++ ("\r\n" : Str)) (hct1 : '\r' ∉ ct) (hct2 : ct ≠ [])
    (hct3 : hasPrefix ct ("Content-Length:" : Str) = false) (hae : '\r' ∉ ae) :
    Framed ([v ++ (" 200 OK\r\n" : Str), ctLit]
      ++ (if ae ≠ [] then [("Content-Encoding: " : Str) ++ ae ++ ("\r\n" : Str)] else [])
      ++ (if sc = true then [("Connection: close\r\n" : Str)] else [])
      ++ [("Content-Length: " : Str) ++ itoa body.length ++ ("\r\n\r\n" : Str), body]) := by
  subst hct
  have hcl : '\r' ∉ ("Content-Length: " : Str) ++ itoa body.length := by
    have := itoa_no_cr body.length
    simp [this]
  have hst : '\r' ∉ v ++ (" 200 OK" : Str) := by simp [hv]
  have hce : '\r' ∉ ("Content-Encoding: " : Str) ++ ae := by simp [hae]
  have hce3 : hasPrefix (("Content-Encoding: " : Str) ++ ae) ("Content-Length:" : Str) = false := by
    simp [hasPrefix, List.isPrefixOf]
  have hcc3 : hasPrefix ("Connection: close" : Str) ("Content-Length:" : Str) = false := by
    decide
  refine framed_render _ (v ++ (" 200 OK" : Str))
    ([ct] ++ (if ae ≠ [] then [("Content-Encoding: " : Str) ++ ae] else [])
      ++ (if sc = true then [("Connection: close" : Str)] else [])
      ++ [("Content-Length: " : Str) ++ itoa body.length]) body ?_ ?_ ?_
  · by_cases h1 : ae = [] <;> cases sc <;> simp [render, h1]
  · intro x hx
    have hx2 : x = v ++ (" 200 OK" : Str) ∨ x = ct ∨ x = ("Content-Encoding: " : Str) ++ ae
        ∨ x = ("Connection: close" : Str)
        ∨ x = ("Content-Length: " : Str) ++ itoa body.length := by
      by_cases h1 : ae = [] <;> cases sc <;>
        simp only [h1, List.mem_cons, List.mem_append, List.mem_singleton, List.not_mem_nil,
          if_true, if_false, ne_eq, not_true_eq_false, not_false_eq_true,
          Bool.false_eq_true] at hx <;> tauto
    rcases hx2 with rfl | rfl | rfl | rfl | rfl
    · exact ⟨by simp, hst⟩
    · exact ⟨hct2, hct1⟩
    · exact ⟨by simp, hce⟩
    · exact ⟨by decide, by decide⟩
    · exact ⟨by simp, hcl⟩
  · intro line hl hp
    have hl2 : line = ct ∨ line = ("Content-Encoding: " : Str) ++ ae
        ∨ line = ("Connection: close" : Str)
        ∨ line = ("Content-Length: " : Str) ++ itoa body.length := by
      by_cases h1 : ae = [] <;> cases sc <;>
        simp only [h1, List.mem_cons, List.mem_append, List.mem_singleton, List.not_mem_nil,
          if_true, if_false, ne_eq, not_true_eq_false, not_false_eq_true,
          Bool.false_eq_true] at hl <;> tauto
    rcases hl2 with rfl | rfl | rfl | rfl
    · rw [hct3] at hp; exact absurd hp (by decide)
    · rw [hce3] at hp; exact absurd hp (by decide)
    · rw [hcc3] at hp; exact absurd hp (by decide)
    · rfl


theorem serveFiles_framed {σ : Type} (env : Env σ) (st : σ) (contents : List Str)
    (reader method v filename ae : Str) (sc : Bool) (after : Flow)
    (hv : '\r' ∉ v) (hae : '\r' ∉ ae) :
    Framed (serveFiles env st contents reader method v filename
      (if ae ≠ [] then [("Content-Encoding: " : Str) ++ ae ++ ("\r\n" : Str)] else [])
      (if sc = true then [("Connection: close\r\n" : Str)] else []) after).out := by
  unfold serveFiles
  by_cases hget : method = ("GET" : Str)
  · have hpost : method ≠ ("POST" : Str) := by rw [hget]; decide
    simp only [hget]
    simp only [if_true]
    cases hf : getFile env st filename with
    | error e =>
      by_cases he : e = OSError.notExist
      · simp only [he, if_true]
        exact framed_status v _ (" 404 Not Found" : Str) [] hv rfl (by decide) (by decide)
      · simp only [he, if_false]
        exact framed_status v _ (" 500 Internal Server Error" : Str) [] hv rfl (by decide) (by decide)
    | ok file =>
      simp only [Bool.false_eq_true, if_false, show ¬ (("GET" : Str) = ("POST" : Str)) by decide]
      exact framed_full v _ ("Content-Type: application/octet-stream" : Str) ae file sc hv rfl
        (by decide) (by decide) (by decide) hae
  · simp only [hget, if_false, Bool.false_eq_true, List.nil_append]
    by_cases hpost : method = ("POST" : Str)
    · simp only [hpost, if_true]
      split
      · exact framed_status v _ (" 400 Bad Request" : Str) [] hv rfl (by decide) (by decide)
      · split
        · exact framed_nil
        · split
          · exact framed_status v _ (" 400 Bad Request" : Str) [] hv rfl (by decide) (by decide)
          · split
            · exact framed_nil
            · split
              · exact framed_status v _ (" 500 Internal Server Error" : Str) [] hv rfl
                  (by decide) (by decide)
              · exact framed_status v _ (" 201 Created" : Str) _ hv rfl (by decide) (by decide)
    · simp only [hpost, if_false]
      exact framed_nil


theorem serveRequest_framed {σ : Type} (env : Env σ) (st : σ) (contents : List Str)
    (reader : Str) : Framed (serveRequest env st contents reader).out := by
  have hv := version_no_cr (contents.headD []) 2
  have hae := getHeader_acceptEncoding_no_cr contents
  unfold serveRequest
  simp only []
  split
  · exact framed_status [] _ ("HTTP/1.1 400 Bad Request" : Str) [] (by simp) rfl
      (by decide) (by decide)
  · split
    · exact framed_status _ _ (" 200 OK" : Str) _ hv rfl (by decide) (by decide)
    · split
      · split
        · exact framed_nil
        · split
          · split
            · exact framed_status _ _ (" 500 Internal Server Error" : Str) _ hv rfl
                (by decide) (by decide)
            · exact framed_full _ _ ("Content-Type: text/plain" : Str) _ _ _ hv rfl
                (by decide) (by decide) (by decide) hae
          · exact framed_full _ _ ("Content-Type: text/plain" : Str) _ _ _ hv rfl
                (by decide) (by decide) (by decide) hae
      · split
        · split
          · exact framed_status _ _ (" 400 Bad Request" : Str) _ hv rfl (by decide) (by decide)
          · exact framed_full _ _ ("Content-Type: text/plain" : Str) _ _ _ hv rfl
                (by decide) (by decide) (by decide) hae
        · split
          · split
            · exact framed_nil
            · exact serveFiles_framed env st contents reader _ _ _ _ _ _ hv hae
          · exact framed_status _ _ (" 404 Not Found" : Str) _ hv rfl (by decide) (by decide)

/-! ## The bounded loops use enough rounds -/

theorem binarySearchLoop_fuel {α β : Type} (x : List α) (target : β) (cmp : α → β → Int)
    (f1 f2 i j : Nat) (h1 : j - i ≤ f1) (h2 : j - i ≤ f2) :
    binarySearchLoop x target cmp f1 i j = binarySearchLoop x target cmp f2 i j := by
  induction f1 generalizing f2 i j with
  | zero =>
    have hij : ¬ i < j := by omega
    cases f2 with
    | zero => rfl
    | succ f2 => simp [binarySearchLoop, hij]
  | succ f1 ih =>
    cases f2 with
    | zero =>
      have hij : ¬ i < j := by omega
      simp [binarySearchLoop, hij]
    | succ f2 =>
      simp only [binarySearchLoop]
      split
      · rename_i hij
        have hh : (i + j) / 2 < j := by omega
        have hh2 : i ≤ (i + j) / 2 := by omega
        split
        · split
          · exact ih f2 _ _ (by omega) (by omega)
          · exact ih f2 _ _ (by omega) (by omega)
        · rfl
      · rfl

theorem readLines_readString (r : Str) (contents : List Str) (pre : Str) :
    readLines r contents pre =
      match readString r with
      | none => none
      | some (l, rest) =>
        if pre ++ l = ("\r\n" : Str) then some (contents, rest)
        else readLines rest (contents ++ [pre ++ l]) [] := by
  induction r generalizing pre with
  | nil => simp [readLines, readString]
  | cons c cs ih =>
    by_cases hc : c = '\n'
    · subst hc
      simp [readLines, readString]
    · simp only [readLines, readString, hc, if_false]
      rw [ih]
      cases h : readString cs with
      | none => simp
      | some p => simp

theorem readLines_length (r : Str) (contents : List Str) (pre : Str) (cs : List Str) (rest : Str)
    (h : readLines r contents pre = some (cs, rest)) : rest.length < r.length := by
  induction r generalizing contents pre with
  | nil => simp [readLines] at h
  | cons c r ih =>
    simp only [readLines] at h
    split at h
    · split at h
      · simp at h
        rw [← h.2]
        simp
      · have := ih _ _ h
        simp
        omega
    · have := ih _ _ h
      simp
      omega


theorem serveFiles_rest {σ : Type} (env : Env σ) (st : σ) (contents : List Str)
    (reader method v filename : Str) (ce cc : List Str) (after : Flow) :
    (serveFiles env st contents reader method v filename ce cc after).rest.length
      ≤ reader.length := by
  unfold serveFiles
  simp only []
  repeat' split
  all_goals simp

theorem serveRequest_rest {σ : Type} (env : Env σ) (st : σ) (contents : List Str)
    (reader : Str) : (serveRequest env st contents reader).rest.length ≤ reader.length := by
  unfold serveRequest
  simp only []
  repeat' split
  all_goals first
    | exact serveFiles_rest _ _ _ _ _ _ _ _ _ _
    | simp

theorem serveLoop_fuel {σ : Type} (env : Env σ) (f1 f2 : Nat) (st : σ) (reader : Str)
    (h1 : reader.length < f1) (h2 : reader.length < f2) :
    serveLoop env f1 st reader = serveLoop env f2 st reader := by
  induction f1 generalizing f2 st reader with
  | zero => omega
  | succ f1 ih =>
    cases f2 with
    | zero => omega
    | succ f2 =>
      simp only [serveLoop]
      cases hr : readLines reader [] [] with
      | none => rfl
      | some p =>
        obtain ⟨contents, rest⟩ := p
        have hlen := readLines_length _ _ _ _ _ hr
        have hrest := serveRequest_rest env st contents rest
        simp only []
        split
        · rfl
        · split
          · rfl
          · rfl
          · rw [ih f2 _ _ (by omega) (by omega)]

theorem serveLoop_exit {σ : Type} (env : Env σ) (fuel : Nat) (st : σ) (reader : Str)
    (h : reader.length < fuel) : (serveLoop env fuel st reader).exit ≠ Exit.outOfFuel := by
  induction fuel generalizing st reader with
  | zero => omega
  | succ f ih =>
    simp only [serveLoop]
    cases hr : readLines reader [] [] with
    | none => simp
    | some p =>
      obtain ⟨contents, rest⟩ := p
      have hlen := readLines_length _ _ _ _ _ hr
      have hrest := serveRequest_rest env st contents rest
      simp only []
      split
      · simp
      · split
        · simp
        · simp
        · exact ih _ _ (by omega)

/-- The session always comes to an end: on every input `handleConn` either returns or
panics, the bound on the rounds of the request loop is never reached. -/
theorem handleConn_exit {σ : Type} (env : Env σ) (st : σ) (input : Str) :
    (handleConn env st input).exit = Exit.returned ∨
      (handleConn env st input).exit = Exit.panicked := by
  have := serveLoop_exit env (input.length + 1) st input (by omega)
  unfold handleConn
  cases h : (serveLoop env (input.length + 1) st input).exit
  · exact Or.inl rfl
  · exact Or.inr rfl
  · exact absurd h this

/-! ## Lemmas on the routes -/

theorem getHeader_absent (header : Str) (contents : List Str)
    (h : ∀ l ∈ contents, contains l header = false) : getHeader header contents = [] := by
  simp only [getHeader]
  cases hfound : (binarySearchFunc contents header cmpContains).2 with
  | false => simp
  | true =>
    obtain ⟨e, he, hcmp⟩ := binarySearchFunc_found contents header cmpContains hfound
    have hc := h e (List.getElem?_mem he)
    simp [cmpContains, hc] at hcmp

theorem userAgent_path (p : Str) :
    (("/user-agent" : Str) ++ p) ≠ ("/" : Str) ∧
    hasPrefix (("/user-agent" : Str) ++ p) ("/echo/" : Str) = false := by
  constructor
  · intro h
    have := congrArg List.length h
    simp at this
  · simp [hasPrefix, List.isPrefixOf]

theorem FileMap.find_insert (m : FileMap) (path content : Str) :
    (m.insert path content).find path = some content := by
  simp [FileMap.insert, FileMap.find]

theorem files_path (p : Str) :
    (("/files/" : Str) ++ p) ≠ ("/" : Str) ∧
    hasPrefix (("/files/" : Str) ++ p) ("/echo/" : Str) = false ∧
    hasPrefix (("/files/" : Str) ++ p) ("/user-agent" : Str) = false := by
  refine ⟨?_, ?_, ?_⟩
  · intro h
    have := congrArg List.length h
    simp at this
  · simp [hasPrefix, List.isPrefixOf]
  · simp [hasPrefix, List.isPrefixOf]

theorem serveFiles_flow {σ : Type} (env : Env σ) (st : σ) (contents : List Str)
    (reader method v filename : Str) (ce cc : List Str) (after : Flow)
    (h : after ≠ Flow.next) :
    (serveFiles env st contents reader method v filename ce cc after).flow ≠ Flow.next := by
  unfold serveFiles
  simp only []
  repeat' split
  all_goals first
    | exact h
    | simp

theorem serveRequest_flow {σ : Type} (env : Env σ) (st : σ) (contents : List Str)
    (reader : Str)
    (hclose : toLower (getHeader ("Connection" : Str) contents) = ("close" : Str)) :
    (serveRequest env st contents reader).flow ≠ Flow.next := by
  unfold serveRequest
  simp only [hclose, beq_self_eq_true, if_true]
  repeat' split
  all_goals first
    | exact serveFiles_flow _ _ _ _ _ _ _ _ _ _ (by simp)
    | simp

set_option maxRecDepth 100000

/-! ## Lemmas on a search that meets the lines in order -/

/-- When every element that compares less stands before every element that does not,
the loop of the binary search ends on the first element that does not. -/
theorem binarySearchLoop_sorted {α β : Type} (pre post : List α) (target : β)
    (cmp : α → β → Int) (hpre : ∀ e ∈ pre, cmp e target < 0)
    (hpost : ∀ e ∈ post, ¬ cmp e target < 0) (fuel i j : Nat)
    (hi : i ≤ pre.length) (hj : pre.length ≤ j) (hjn : j ≤ (pre ++ post).length)
    (hf : j - i ≤ fuel) :
    binarySearchLoop (pre ++ post) target cmp fuel i j = pre.length := by
  induction fuel generalizing i j with
  | zero =>
    simp only [binarySearchLoop]
    omega
  | succ fuel ih =>
    simp only [binarySearchLoop]
    split
    · rename_i hij
      have hh : (i + j) / 2 < j := by omega
      have hh2 : i ≤ (i + j) / 2 := by omega
      have hlen : (i + j) / 2 < (pre ++ post).length := by omega
      rw [List.getElem?_eq_getElem hlen]
      simp only
      by_cases hlt : (i + j) / 2 < pre.length
      · have hmem : (pre ++ post)[(i + j) / 2] ∈ pre := by
          rw [List.getElem_append_left hlt]
          exact List.getElem_mem _
        rw [if_pos (hpre _ hmem)]
        exact ih _ _ (by omega) hj hjn (by omega)
      · have hge : pre.length ≤ (i + j) / 2 := by omega
        have hmem : (pre ++ post)[(i + j) / 2] ∈ post := by
          rw [List.getElem_append_right hge]
          exact List.getElem_mem _
        rw [if_neg (hpost _ hmem)]
        exact ih _ _ hi hge (by omega) (by omega)
    · omega

/-- The search finds a line that contains the name when no line before it contains the
name and every line after it does. -/
theorem binarySearchFunc_sorted (pre post : List Str) (line name : Str)
    (hpre : ∀ l ∈ pre, contains l name = false) (hline : contains line name = true)
    (hpost : ∀ l ∈ post, contains l name = true) :
    binarySearchFunc (pre ++ line :: post) name cmpContains = (pre.length, true) := by
  have h1 : ∀ e ∈ pre, cmpContains e name < 0 := by
    intro e he
    simp [cmpContains, hpre e he]
  have h2 : ∀ e ∈ line :: post, ¬ cmpContains e name < 0 := by
    intro e he
    have : contains e name = true := by
      rcases List.mem_cons.1 he with rfl | he
      · exact hline
      · exact hpost e he
    simp [cmpContains, this]
  have h := binarySearchLoop_sorted pre (line :: post) name cmpContains h1 h2
    (pre ++ line :: post).length 0 (pre ++ line :: post).length (Nat.zero_le _)
    (by simp) (Nat.le_refl _) (by omega)
  unfold binarySearchFunc
  simp only [h]
  have hget : (pre ++ line :: post)[pre.length]? = some line := by
    rw [List.getElem?_append_right (Nat.le_refl _)]
    simp
  rw [hget]
  simp [cmpContains, hline]

/-! ## Lemmas on the value of a header line and its tokens -/

theorem dropWhile_append_all (p : Char → Bool) (a b : Str) (h : ∀ c ∈ a, p c = true) :
    List.dropWhile p (a ++ b) = List.dropWhile p b := by
  induction a with
  | nil => rfl
  | cons c cs ih =>
    rw [List.cons_append, List.dropWhile_cons, if_pos (h c (List.mem_cons_self _ _))]
    exact ih (fun d hd => h d (List.mem_cons_of_mem _ hd))

theorem trimRight_tail (s tail : Str) (h1 : ¬ (['\r'] : Str) <:+ s)
    (h2 : ¬ (['\n'] : Str) <:+ s) (ht : ∀ c ∈ tail, c = '\r' ∨ c = '\n') :
    trimRight (s ++ tail) ("\r\n" : Str) = s := by
  unfold trimRight
  rw [List.reverse_append, dropWhile_append_all _ _ _ (fun c hc => by
    rcases ht c (List.mem_reverse.1 hc) with rfl | rfl <;> decide)]
  rcases List.eq_nil_or_concat s with rfl | ⟨init, c, rfl⟩
  · rfl
  · rw [List.concat_eq_append] at h1 h2 ⊢
    have hc1 : c ≠ '\r' := by
      rintro rfl
      exact h1 (List.suffix_append _ _)
    have hc2 : c ≠ '\n' := by
      rintro rfl
      exact h2 (List.suffix_append _ _)
    have hc1b : ¬ '\r' = c := fun h => hc1 h.symm
    have hc2b : ¬ '\n' = c := fun h => hc2 h.symm
    simp [List.dropWhile, hc1, hc2, hc1b, hc2b]

theorem suffix_singleton_append (c : Char) (p v : Str) (hp : ¬ ([c] : Str) <:+ p)
    (hv : ¬ ([c] : Str) <:+ v) : ¬ ([c] : Str) <:+ p ++ v := by
  rcases List.eq_nil_or_concat v with rfl | ⟨init, d, rfl⟩
  · simpa using hp
  · rw [List.concat_eq_append] at hv ⊢
    intro h
    apply hv
    obtain ⟨t, ht⟩ := h
    rw [← List.append_assoc] at ht
    have := List.append_inj_right' ht rfl
    rw [this]
    exact List.suffix_append _ _

theorem trimPrefix_append (p v : Str) : trimPrefix (p ++ v) p = v := by
  simp [trimPrefix, hasPrefix_append]

theorem trimPrefix_absent (p v : Str) (h : ¬ p <+: v) : trimPrefix v p = v := by
  have : hasPrefix v p = false := by
    rw [← Bool.not_eq_true, hasPrefix_iff]
    exact h
  simp [trimPrefix, this]

theorem comma_eq : (", " : Str) = [',', ' '] := rfl

theorem splitAux_comma_append (a s cur : Str) (ha : ¬ (", " : Str) <:+: a)
    (hs : s.head? ≠ some ' ') :
    splitAux (", " : Str) 0 (a ++ s) cur = splitAux (", " : Str) 0 s (cur ++ a) := by
  induction a generalizing cur with
  | nil => simp
  | cons c cs ih =>
    have hcs : ¬ (", " : Str) <:+: cs := fun h => ha (h.trans (List.suffix_cons c cs).isInfix)
    have hp : hasPrefix (c :: (cs ++ s)) [',', ' '] = false := by
      rw [← Bool.not_eq_true, hasPrefix_iff]
      intro hpre
      cases cs with
      | nil =>
        cases s with
        | nil => simp at hpre
        | cons d s =>
          simp at hpre
          exact hs (by simp [hpre.2.symm])
      | cons d cs =>
        simp at hpre
        apply ha
        rw [comma_eq, ← hpre.1, ← hpre.2]
        exact ⟨[], cs, by simp⟩
    rw [List.cons_append, comma_eq, splitAux, hp]
    simp only [Bool.false_eq_true, if_false]
    rw [← comma_eq, ih _ hcs]
    simp

theorem splitAux_comma_sep (s cur : Str) :
    splitAux (", " : Str) 0 ((", " : Str) ++ s) cur = cur :: splitAux (", " : Str) 0 s [] := by
  simp [splitAux, hasPrefix]

/-- Splitting on `", "` gives back the tokens that were joined with `", "`, when none
of them holds `", "` itself. -/
theorem split_intercalate_comma (t : Str) (ts : List Str)
    (h : ∀ x ∈ t :: ts, ¬ (", " : Str) <:+: x) :
    split (List.intercalate (", " : Str) (t :: ts)) (", " : Str) = t :: ts := by
  unfold split
  induction ts generalizing t with
  | nil =>
    have := splitAux_comma_append t [] [] (h t (by simp)) (by simp)
    simpa [List.intercalate, splitAux] using this
  | cons t2 ts ih =>
    have e : List.intercalate (", " : Str) (t :: t2 :: ts) =
        t ++ ((", " : Str) ++ List.intercalate (", " : Str) (t2 :: ts)) := by
      simp [List.intercalate]
    rw [e, splitAux_comma_append _ _ _ (h t (by simp)) (by simp), splitAux_comma_sep,
      ih t2 (fun x hx => h x (List.mem_cons_of_mem _ hx))]
    simp

theorem filter_split_intercalate (p : Str → Bool) (hp : p [] = false) (ts : List Str)
    (h : ∀ x ∈ ts, ¬ (", " : Str) <:+: x) :
    (split (List.intercalate (", " : Str) ts) (", " : Str)).filter p = ts.filter p := by
  cases ts with
  | nil => simp [split, splitAux, List.intercalate, hp]
  | cons t ts => rw [split_intercalate_comma t ts h]

theorem isGzipToken_iff (t : Str) :
    isGzipToken t = true ↔
      ∃ a b, t = List.replicate a ' ' ++ (("gzip" : Str) ++ List.replicate b ' ') := by
  induction t with
  | nil =>
    simp only [isGzipToken]
    constructor
    · intro h; exact absurd h (by decide)
    · rintro ⟨a, b, h⟩
      have := congrArg List.length h
      simp at this
      omega
  | cons c t ih =>
    by_cases hc : c = ' '
    · subst hc
      simp only [isGzipToken, if_true]
      rw [ih]
      constructor
      · rintro ⟨a, b, rfl⟩
        exact ⟨a + 1, b, rfl⟩
      · rintro ⟨a, b, h⟩
        cases a with
        | zero => simp at h
        | succ a =>
          refine ⟨a, b, ?_⟩
          simpa [List.replicate_succ] using h
    · simp only [isGzipToken, if_neg hc]
      constructor
      · intro h
        simp only [Bool.and_eq_true, beq_iff_eq, List.all_eq_true] at h
        refine ⟨0, ((c :: t).drop 4).length, ?_⟩
        have hd : (c :: t).drop 4 = List.replicate ((c :: t).drop 4).length ' ' :=
          List.eq_replicate_iff.2 ⟨rfl, fun d hd => h.2 d hd⟩
        rw [← hd, ← h.1]
        simp
      · rintro ⟨a, b, h⟩
        cases a with
        | zero =>
          simp only [List.replicate_zero, List.nil_append] at h
          rw [h]
          simp
        | succ a =>
          simp [List.replicate_succ] at h
          exact absurd h.1 hc

theorem dropWhile_replicate_space (a : Nat) (s : Str) :
    List.dropWhile (fun c => (" " : Str).elem c) (List.replicate a ' ' ++ s) =
      List.dropWhile (fun c => (" " : Str).elem c) s := by
  induction a with
  | zero => simp
  | succ a ih => simp [List.replicate_succ, List.dropWhile, ih]

/-- Go `strings.Trim(t, " ")` gives `gzip` exactly for the tokens that are `gzip` with
spaces around it. -/
theorem trim_gzip_iff (t : Str) :
    trim t (" " : Str) = ("gzip" : Str) ↔
      ∃ a b, t = List.replicate a ' ' ++ (("gzip" : Str) ++ List.replicate b ' ') := by
  constructor
  · intro h
    unfold trim trimRight trimLeft at h
    have h1 := List.takeWhile_append_dropWhile (fun c => (" " : Str).elem c) t
    have h2 := List.takeWhile_append_dropWhile (fun c => (" " : Str).elem c)
      (List.dropWhile (fun c => (" " : Str).elem c) t).reverse
    have h3 := congrArg List.reverse h2
    rw [List.reverse_append, h, List.reverse_reverse] at h3
    refine ⟨(List.takeWhile (fun c => (" " : Str).elem c) t).length,
      (List.takeWhile (fun c => (" " : Str).elem c)
        (List.dropWhile (fun c => (" " : Str).elem c) t).reverse).reverse.length, ?_⟩
    have e1 : List.takeWhile (fun c => (" " : Str).elem c) t =
        List.replicate (List.takeWhile (fun c => (" " : Str).elem c) t).length ' ' := by
      apply List.eq_replicate_iff.2 ⟨rfl, ?_⟩
      intro d hd
      have := List.mem_takeWhile_imp hd
      simpa using this
    have e2 : (List.takeWhile (fun c => (" " : Str).elem c)
        (List.dropWhile (fun c => (" " : Str).elem c) t).reverse).reverse =
        List.replicate (List.takeWhile (fun c => (" " : Str).elem c)
          (List.dropWhile (fun c => (" " : Str).elem c) t).reverse).reverse.length ' ' := by
      apply List.eq_replicate_iff.2 ⟨rfl, ?_⟩
      intro d hd
      have := List.mem_takeWhile_imp (List.mem_reverse.1 hd)
      simpa using this
    rw [← e1, ← e2, h3, h1]
  · rintro ⟨a, b, rfl⟩
    unfold trim trimRight trimLeft
    rw [dropWhile_replicate_space]
    have e : List.dropWhile (fun c => (" " : Str).elem c)
        (("gzip" : Str) ++ List.replicate b ' ') = ("gzip" : Str) ++ List.replicate b ' ' := by
      simp [List.dropWhile]
    rw [e, List.reverse_append, List.reverse_replicate, dropWhile_replicate_space]
    simp [List.dropWhile]

theorem trim_gzip (t : Str) : (trim t (" " : Str) == ("gzip" : Str)) = isGzipToken t := by
  rw [Bool.eq_iff_iff, beq_iff_eq, trim_gzip_iff, isGzipToken_iff]

theorem supported_contains (x : Str) :
    ([("gzip" : Str)] : List Str).contains x = (x == ("gzip" : Str)) := by
  rw [Bool.eq_iff_iff]
  simp [List.contains]

theorem aeName_eq : ("Accept-Encoding" : Str) ++ (": " : Str) = ("Accept-Encoding: " : Str) :=
  rfl

theorem contains_aeLine (value tail : Str) :
    contains (("Accept-Encoding: " : Str) ++ value ++ tail) ("Accept-Encoding" : Str) = true := by
  rw [contains_iff]
  exact ⟨[], (": " : Str) ++ value ++ tail, by simp⟩

/-- The value `getHeader` computes for `Accept-Encoding` from the line the search
locates: the line is `p`, a list of tokens joined with `", "`, and a tail of carriage
returns and line feeds, where `p` is the prefix `Accept-Encoding: ` or is empty. -/
theorem getHeader_acceptEncoding_value (contents : List Str) (i : Nat) (p : Str)
    (tokens : List Str) (tail : Str)
    (hs : binarySearchFunc contents ("Accept-Encoding" : Str) cmpContains = (i, true))
    (hl : contents[i]? = some (p ++ List.intercalate (", " : Str) tokens ++ tail))
    (hp : p = ("Accept-Encoding: " : Str) ∨
      (p = [] ∧ ¬ ("Accept-Encoding: " : Str) <+: List.intercalate (", " : Str) tokens))
    (htok : ∀ t ∈ tokens, ¬ (", " : Str) <:+: t)
    (hcr : ¬ (['\r'] : Str) <:+ List.intercalate (", " : Str) tokens)
    (hlf : ¬ (['\n'] : Str) <:+ List.intercalate (", " : Str) tokens)
    (htail : ∀ c ∈ tail, c = '\r' ∨ c = '\n') :
    getHeader ("Accept-Encoding" : Str) contents =
      List.intercalate (", " : Str) (tokens.filter isGzipToken) := by
  have hval : trimPrefix (trimRight (p ++ List.intercalate (", " : Str) tokens ++ tail)
      ("\r\n" : Str)) (("Accept-Encoding" : Str) ++ (": " : Str)) =
      List.intercalate (", " : Str) tokens := by
    rcases hp with rfl | ⟨rfl, hno⟩
    · rw [trimRight_tail _ _ (suffix_singleton_append _ _ _ (by decide) hcr)
        (suffix_singleton_append _ _ _ (by decide) hlf) htail, aeName_eq, trimPrefix_append]
    · rw [List.nil_append, trimRight_tail _ _ hcr hlf htail, aeName_eq,
        trimPrefix_absent _ _ hno]
  simp only [getHeader, hs, Bool.not_true, Bool.false_eq_true, if_false, if_true]
  rw [List.getD_eq_getElem?_getD, hl, Option.getD_some, hval, join]
  congr 1
  rw [← filter_split_intercalate isGzipToken rfl tokens htok]
  apply List.filter_congr
  intro x _
  rw [supported_contains, trim_gzip]

/-- The value `getHeader` returns for `Accept-Encoding` when the header line comes after
every line that does not contain the name and before none. -/
theorem getHeader_acceptEncoding_inOrder (pre post : List Str) (tokens : List Str)
    (tail : Str)
    (hpre : ∀ l ∈ pre, contains l ("Accept-Encoding" : Str) = false)
    (hpost : ∀ l ∈ post, contains l ("Accept-Encoding" : Str) = true)
    (htok : ∀ t ∈ tokens, ¬ (", " : Str) <:+: t)
    (hcr : ¬ (['\r'] : Str) <:+ List.intercalate (", " : Str) tokens)
    (hlf : ¬ (['\n'] : Str) <:+ List.intercalate (", " : Str) tokens)
    (htail : ∀ c ∈ tail, c = '\r' ∨ c = '\n') :
    getHeader ("Accept-Encoding" : Str)
      (pre ++ (("Accept-Encoding: " : Str) ++ List.intercalate (", " : Str) tokens ++ tail)
        :: post) =
      List.intercalate (", " : Str) (tokens.filter isGzipToken) := by
  have hsearch := binarySearchFunc_sorted pre post _ _ hpre
    (contains_aeLine (List.intercalate (", " : Str) tokens) tail) hpost
  have hget : (pre ++ (("Accept-Encoding: " : Str) ++ List.intercalate (", " : Str) tokens
      ++ tail) :: post)[pre.length]? = some (("Accept-Encoding: " : Str)
      ++ List.intercalate (", " : Str) tokens ++ tail) := by
    rw [List.getElem?_append_right (Nat.le_refl _)]
    simp
  exact getHeader_acceptEncoding_value _ _ _ tokens tail hsearch hget (Or.inl rfl)
    htok hcr hlf htail

/-- C1 (fails on the code): a header that is present can be reported absent.  In the
four lines below the second one holds `Connection`, yet the binary search probes
lines 2 and 3 only, ends at position 4 and reports "not found", so `getHeader`
returns the empty string; the same happens to the inlined `Content-Length` search
of the POST handler. -/
theorem getHeader_misses_present_header :
    contains ("Connection: close\r\n" : Str) ("Connection" : Str) = true ∧
    binarySearchFunc
      [("GET / HTTP/1.1\r\n" : Str), ("Connection: close\r\n" : Str), ("Host: x\r\n" : Str),
        ("Accept: text/plain\r\n" : Str)]
      ("Connection" : Str) cmpContains = (4, false) ∧
    getHeader ("Connection" : Str)
      [("GET / HTTP/1.1\r\n" : Str), ("Connection: close\r\n" : Str), ("Host: x\r\n" : Str),
        ("Accept: text/plain\r\n" : Str)] = [] ∧
    contains ("Content-Length: 2\r\n" : Str) ("Content-Length" : Str) = true ∧
    binarySearchFunc
      [("POST /files/a HTTP/1.1\r\n" : Str), ("Content-Length: 2\r\n" : Str),
        ("Host: x\r\n" : Str), ("Accept: text/plain\r\n" : Str)]
      ("Content-Length" : Str) cmpContains = (4, false) := by
  decide

/-- C2, as amended: for every request whose path is `/echo/<s>` and in which no line
that contains `Accept-Encoding` contains `gzip`, the server writes a 200 response with
`Content-Type: text/plain`, no `Content-Encoding` header, `Connection: close` when
asked for, and `Content-Length` and body equal to the part of `<s>` before its first
`/` (all of `<s>` when it holds none). -/
theorem echo_plain_body {σ : Type} (env : Env σ) (st : σ) (contents : List Str)
    (reader : Str) (method s v : Str) (more : List Str)
    (hreq : fields (contents.headD []) = method :: (("/echo/" : Str) ++ s) :: v :: more)
    (hgzip : ∀ l ∈ contents, contains l ("Accept-Encoding" : Str) = true →
      contains l ("gzip" : Str) = false) :
    serveRequest env st contents reader =
      { out := [v ++ (" 200 OK\r\n" : Str), ("Content-Type: text/plain\r\n" : Str)]
          ++ (if toLower (getHeader ("Connection" : Str) contents) == ("close" : Str)
              then [("Connection: close\r\n" : Str)] else [])
          ++ [("Content-Length: " : Str) ++ itoa (s.takeWhile (fun c => c != '/')).length
                ++ ("\r\n\r\n" : Str),
              s.takeWhile (fun c => c != '/')],
        store := st, rest := reader,
        flow := if toLower (getHeader ("Connection" : Str) contents) == ("close" : Str)
          then Flow.stop else Flow.next } := by
  have hae := getHeader_acceptEncoding_nil contents hgzip
  have hsplit := split_echo s
  have hne := echo_ne_root s
  have hpre := hasPrefix_append ("/echo/" : Str) s
  unfold serveRequest
  simp only [hreq, hae, List.getD_cons_zero, List.getD_cons_succ, hne, hpre, hsplit]
  simp [contains]

/-- Witness of C2: `GET /echo/abc` with a `Host` header only is answered with the
body `abc`. -/
theorem echo_plain_body_witness :
    fields (([("GET /echo/abc HTTP/1.1\r\n" : Str), ("Host: x\r\n" : Str)] : List Str).headD [])
      = ("GET" : Str) :: (("/echo/" : Str) ++ ("abc" : Str)) :: ("HTTP/1.1" : Str) :: [] ∧
    serveRequest demoEnv [] [("GET /echo/abc HTTP/1.1\r\n" : Str), ("Host: x\r\n" : Str)] [] =
      { out := [("HTTP/1.1 200 OK\r\n" : Str), ("Content-Type: text/plain\r\n" : Str),
                ("Content-Length: 3\r\n\r\n" : Str), ("abc" : Str)],
        store := [], rest := [], flow := Flow.next } :=
  ⟨by decide,
   echo_plain_body demoEnv [] [("GET /echo/abc HTTP/1.1\r\n" : Str), ("Host: x\r\n" : Str)] []
     ("GET" : Str) ("abc" : Str) ("HTTP/1.1" : Str) [] (by decide) (by decide)⟩


/-- Counterexample to C2 as stated: for the path `/echo/a/b` without any
`Accept-Encoding` header the body written is `a`, not `a/b`; and a request without
any header whose request line holds `Accept-Encoding` and a token `gzip` is answered
with a compressed body and a `Content-Encoding` header. -/
theorem echo_plain_counterexample :
    (handleConn demoEnv [] ("GET /echo/a/b HTTP/1.1\r\nHost: x\r\n\r\n" : Str)).out =
      [("HTTP/1.1 200 OK\r\n" : Str), ("Content-Type: text/plain\r\n" : Str),
        ("Content-Length: 1\r\n\r\n" : Str), ("a" : Str)] ∧
    ("a" : Str) ≠ ("a/b" : Str) ∧
    (handleConn demoEnv [] ("GET /echo/Accept-Encoding HTTP/1.1 , gzip\r\n\r\n" : Str)).out =
      [("HTTP/1.1 200 OK\r\n" : Str), ("Content-Type: text/plain\r\n" : Str),
        ("Content-Encoding: gzip\r\n" : Str), ("Content-Length: 17\r\n\r\n" : Str),
        markCompress ("Accept-Encoding" : Str)] := by
  decide

/-- C4 (fails on the code): a POST that carries `Content-Length: 2` and the two body
bytes `hi` is answered 400 and stores nothing when the binary search misses the
header line, so a later GET of the same name is answered 404; the same happens with
`Content-Length` as the only header when the file name itself holds
`Content-Length`, because the search then ends on the request line. -/
theorem post_get_round_trip_fails :
    handleConn demoEnv []
      ("POST /files/a HTTP/1.1\r\nContent-Length: 2\r\nHost: x\r\nAccept: text/plain\r\n\r\nhi" : Str) =
      { out := [("HTTP/1.1 400 Bad Request\r\n\r\n" : Str)], store := [], unread := [],
        exit := Exit.returned } ∧
    (handleConn demoEnv [] ("GET /files/a HTTP/1.1\r\n\r\n" : Str)).out =
      [("HTTP/1.1 404 Not Found\r\n\r\n" : Str)] ∧
    handleConn demoEnv []
      ("POST /files/Content-Length HTTP/1.1\r\nContent-Length: 2\r\n\r\nhi" : Str) =
      { out := [("HTTP/1.1 400 Bad Request\r\n\r\n" : Str)], store := [], unread := [],
        exit := Exit.returned } ∧
    (handleConn demoEnv [] ("GET /files/Content-Length HTTP/1.1\r\n\r\n" : Str)).out =
      [("HTTP/1.1 404 Not Found\r\n\r\n" : Str)] := by
  decide

/-- C5 (fails on the code): the first request below carries `Connection: close`, yet
the binary search misses that line, the session goes on, and the second request on
the same stream is read and answered. -/
theorem connection_close_missed :
    handleConn demoEnv []
      ("GET / HTTP/1.1\r\nConnection: close\r\nHost: x\r\nAccept: text/plain\r\n\r\nGET /echo/hi HTTP/1.1\r\n\r\n" : Str) =
      { out := [("HTTP/1.1 200 OK\r\n\r\n" : Str), ("HTTP/1.1 200 OK\r\n" : Str),
          ("Content-Type: text/plain\r\n" : Str), ("Content-Length: 2\r\n\r\n" : Str),
          ("hi" : Str)],
        store := [], unread := [], exit := Exit.returned } := by
  decide

/-- C6: when the first line of a request has fewer than three fields, whatever lines
follow it up to the blank line and whatever bytes follow the blank line, the server
writes `HTTP/1.1 400 Bad Request` and returns; nothing else is written, the file
system is untouched and the bytes after the blank line stay unread.  This holds for
the first request of a connection (`handleConn`) and in the same way for a request
met at any later round of the request loop (`serveLoop`). -/
theorem malformed_request_line {σ : Type} (env : Env σ) (st : σ) (first : Str)
    (more : List Str) (rest : Str)
    (hfirst : isLine first = true) (hne : first ≠ ("\r\n" : Str))
    (hmore : ∀ l ∈ more, isLine l = true ∧ l ≠ ("\r\n" : Str))
    (htok : (fields first).length < 3) :
    handleConn env st (first ++ (more.flatten ++ (("\r\n" : Str) ++ rest))) =
      { out := [("HTTP/1.1 400 Bad Request\r\n\r\n" : Str)], store := st, unread := rest,
        exit := Exit.returned } ∧
    ∀ fuel, serveLoop env (fuel + 1) st (first ++ (more.flatten ++ (("\r\n" : Str) ++ rest))) =
      { out := [("HTTP/1.1 400 Bad Request\r\n\r\n" : Str)], store := st, unread := rest,
        exit := Exit.returned } := by
  have hls : ∀ l ∈ first :: more, isLine l = true ∧ l ≠ ("\r\n" : Str) := by
    intro l hl
    rcases List.mem_cons.1 hl with rfl | h
    · exact ⟨hfirst, hne⟩
    · exact hmore l h
  have hread := readLines_lines (first :: more) hls rest []
  rw [List.flatten_cons, List.append_assoc] at hread
  have key : ∀ fuel, serveLoop env (fuel + 1) st
      (first ++ (more.flatten ++ (("\r\n" : Str) ++ rest))) =
      { out := [("HTTP/1.1 400 Bad Request\r\n\r\n" : Str)], store := st, unread := rest,
        exit := Exit.returned } := by
    intro fuel
    simp only [serveLoop, hread]
    simp [serveRequest, htok]
  exact ⟨key _, key⟩

/-- Witness of C6: the request line `GET /` has two fields; the well-formed request
that follows on the stream is never read. -/
theorem malformed_request_line_witness :
    (fields ("GET /\r\n" : Str)).length < 3 ∧
    handleConn demoEnv []
      (("GET /\r\n" : Str) ++ (([("Host: x\r\n" : Str)] : List Str).flatten
        ++ (("\r\n" : Str) ++ ("GET / HTTP/1.1\r\n\r\n" : Str)))) =
      { out := [("HTTP/1.1 400 Bad Request\r\n\r\n" : Str)], store := [],
        unread := ("GET / HTTP/1.1\r\n\r\n" : Str), exit := Exit.returned } :=
  ⟨by decide,
   (malformed_request_line demoEnv [] ("GET /\r\n" : Str) [("Host: x\r\n" : Str)]
     ("GET / HTTP/1.1\r\n\r\n" : Str) (by decide) (by decide) (by decide) (by decide)).1⟩

/-- C7 (fails on the code): on the path `/` with `Connection: close` the server
writes the status line together with the blank line first and `Connection: close`
after it, so that line is the body, not a header; the 400 answer of the user-agent
branch carries no `Connection: close` at all. -/
theorem connection_close_after_blank_line :
    (handleConn demoEnv [] ("GET / HTTP/1.1\r\nConnection: close\r\n\r\n" : Str)).out =
      [("HTTP/1.1 200 OK\r\n\r\n" : Str), ("Connection: close\r\n" : Str)] ∧
    splitHeadBody
      (handleConn demoEnv [] ("GET / HTTP/1.1\r\nConnection: close\r\n\r\n" : Str)).out.flatten =
      some (("HTTP/1.1 200 OK" : Str), ("Connection: close\r\n" : Str)) ∧
    (handleConn demoEnv []
      ("GET /user-agent HTTP/1.1\r\nConnection: close\r\n\r\n" : Str)).out =
      [("HTTP/1.1 400 Bad Request\r\n\r\n" : Str)] := by
  decide

/-- C8: in the response to any request, cut at its first blank line, every header
line that starts with `Content-Length:` is `Content-Length: ` followed by the decimal
number of bytes that follow the blank line. -/
theorem content_length_matches_body {σ : Type} (env : Env σ) (st : σ)
    (contents : List Str) (reader head body line : Str)
    (hsplit : splitHeadBody (serveRequest env st contents reader).out.flatten
      = some (head, body))
    (hline : line ∈ headerLines head)
    (hname : hasPrefix line ("Content-Length:" : Str) = true) :
    line = ("Content-Length: " : Str) ++ itoa body.length :=
  serveRequest_framed env st contents reader head body line hsplit hline hname

/-- Witness of C8: the response to `GET /echo/abc` with `Accept-Encoding: gzip`
declares the five bytes of the compressed body. -/
theorem content_length_matches_body_witness :
    splitHeadBody (serveRequest demoEnv [] [("GET /echo/abc HTTP/1.1\r\n" : Str),
        ("Accept-Encoding: gzip\r\n" : Str)] []).out.flatten
      = some (("HTTP/1.1 200 OK\r\nContent-Type: text/plain\r\nContent-Encoding: gzip\r\nContent-Length: 5" : Str),
          markCompress ("abc" : Str)) ∧
    ("Content-Length: 5" : Str) ∈ headerLines
      ("HTTP/1.1 200 OK\r\nContent-Type: text/plain\r\nContent-Encoding: gzip\r\nContent-Length: 5" : Str) ∧
    ("Content-Length: 5" : Str) =
      ("Content-Length: " : Str) ++ itoa (markCompress ("abc" : Str)).length :=
  ⟨by decide, by decide,
   content_length_matches_body demoEnv [] [("GET /echo/abc HTTP/1.1\r\n" : Str),
       ("Accept-Encoding: gzip\r\n" : Str)] []
     ("HTTP/1.1 200 OK\r\nContent-Type: text/plain\r\nContent-Encoding: gzip\r\nContent-Length: 5" : Str)
     (markCompress ("abc" : Str)) ("Content-Length: 5" : Str)
     (by decide) (by decide) (by decide)⟩

/-- C9 (fails on the code): when the located `Content-Length` line has no second
field, as in `Content-Length:5` or in `Content-Length: ` with an empty value, taking
field 1 of the line panics: nothing is written and no 400 is sent. -/
theorem content_length_without_value_panics :
    handleConn demoEnv []
      ("POST /files/a HTTP/1.1\r\nContent-Length:5\r\n\r\nhello" : Str) =
      { out := [], store := [], unread := ("hello" : Str), exit := Exit.panicked } ∧
    handleConn demoEnv []
      ("POST /files/a HTTP/1.1\r\nContent-Length: \r\n\r\n" : Str) =
      { out := [], store := [], unread := [], exit := Exit.panicked } := by
  decide

/-- C10 (fails on the code): a request without any header line whose request line
holds `User-Agent` is answered 200, with the request line as body, instead of 400. -/
theorem request_line_taken_as_user_agent :
    handleConn demoEnv [] ("GET /user-agent/User-Agent HTTP/1.1\r\n\r\n" : Str) =
      { out := [("HTTP/1.1 200 OK\r\n" : Str), ("Content-Type: text/plain\r\n" : Str),
          ("Content-Length: 35\r\n\r\n" : Str),
          ("GET /user-agent/User-Agent HTTP/1.1" : Str)],
        store := [], unread := [], exit := Exit.returned } := by
  decide

/-! ## Further properties of the handler -/

/-- When the lookup of `Connection` yields `close` in any letter case, the round that
serves the request is the last one: `handleConn` writes what that round writes and
ends, leaving the rest of the stream unread. -/
theorem close_found_ends_session {σ : Type} (env : Env σ) (st : σ) (first : Str)
    (more : List Str) (rest : Str)
    (hfirst : isLine first = true) (hne : first ≠ ("\r\n" : Str))
    (hmore : ∀ l ∈ more, isLine l = true ∧ l ≠ ("\r\n" : Str))
    (hclose : toLower (getHeader ("Connection" : Str) (first :: more)) = ("close" : Str)) :
    handleConn env st (first ++ (more.flatten ++ (("\r\n" : Str) ++ rest))) =
      { out := (serveRequest env st (first :: more) rest).out,
        store := (serveRequest env st (first :: more) rest).store,
        unread := (serveRequest env st (first :: more) rest).rest,
        exit := if (serveRequest env st (first :: more) rest).flow = Flow.panic
          then Exit.panicked else Exit.returned } := by
  have hls : ∀ l ∈ first :: more, isLine l = true ∧ l ≠ ("\r\n" : Str) := by
    intro l hl
    rcases List.mem_cons.1 hl with rfl | h
    · exact ⟨hfirst, hne⟩
    · exact hmore l h
  have hread := readLines_lines (first :: more) hls rest []
  rw [List.flatten_cons, List.append_assoc] at hread
  have hflow := serveRequest_flow env st (first :: more) rest hclose
  simp only [handleConn, serveLoop, hread]
  simp only [List.nil_append, reduceCtorEq, if_false]
  cases hf : (serveRequest env st (first :: more) rest).flow with
  | next => exact absurd hf hflow
  | stop => simp
  | panic => simp

/-- Witness: a keep-alive stream of two requests, the first with `Connection: Close`
as its last header, is cut after the first response. -/
theorem close_found_ends_session_witness :
    toLower (getHeader ("Connection" : Str)
      [("GET /echo/hi HTTP/1.1\r\n" : Str), ("Host: x\r\n" : Str),
        ("Connection: Close\r\n" : Str)]) = ("close" : Str) ∧
    handleConn demoEnv []
      (("GET /echo/hi HTTP/1.1\r\n" : Str) ++
        (([("Host: x\r\n" : Str), ("Connection: Close\r\n" : Str)] : List Str).flatten ++
          (("\r\n" : Str) ++ ("GET / HTTP/1.1\r\n\r\n" : Str)))) =
      { out := [("HTTP/1.1 200 OK\r\n" : Str), ("Content-Type: text/plain\r\n" : Str),
          ("Connection: close\r\n" : Str), ("Content-Length: 2\r\n\r\n" : Str), ("hi" : Str)],
        store := [], unread := ("GET / HTTP/1.1\r\n\r\n" : Str), exit := Exit.returned } :=
  ⟨by decide,
   close_found_ends_session demoEnv [] ("GET /echo/hi HTTP/1.1\r\n" : Str)
     [("Host: x\r\n" : Str), ("Connection: Close\r\n" : Str)] ("GET / HTTP/1.1\r\n\r\n" : Str)
     (by decide) (by decide) (by decide) (by decide)⟩

/-- When no line of a request, the request line included, contains `User-Agent`, a
path with prefix `/user-agent` is answered 400 Bad Request. -/
theorem user_agent_absent {σ : Type} (env : Env σ) (st : σ) (contents : List Str)
    (reader : Str) (method p v : Str) (more : List Str)
    (hreq : fields (contents.headD []) = method :: (("/user-agent" : Str) ++ p) :: v :: more)
    (habs : ∀ l ∈ contents, contains l ("User-Agent" : Str) = false) :
    serveRequest env st contents reader =
      { out := [v ++ (" 400 Bad Request\r\n\r\n" : Str)], store := st, rest := reader,
        flow := if toLower (getHeader ("Connection" : Str) contents) == ("close" : Str)
          then Flow.stop else Flow.next } := by
  have hua := getHeader_absent ("User-Agent" : Str) contents habs
  have hp := userAgent_path p
  have hpre := hasPrefix_append ("/user-agent" : Str) p
  unfold serveRequest
  simp only [hreq, List.getD_cons_zero, List.getD_cons_succ, hp.1, hp.2, hpre, hua]
  simp

/-- Witness: `GET /user-agent` with a `Host` header only. -/
theorem user_agent_absent_witness :
    (∀ l ∈ ([("GET /user-agent HTTP/1.1\r\n" : Str), ("Host: x\r\n" : Str)] : List Str),
      contains l ("User-Agent" : Str) = false) ∧
    serveRequest demoEnv [] [("GET /user-agent HTTP/1.1\r\n" : Str), ("Host: x\r\n" : Str)] [] =
      { out := [("HTTP/1.1 400 Bad Request\r\n\r\n" : Str)], store := [], rest := [],
        flow := Flow.next } :=
  ⟨by decide,
   user_agent_absent demoEnv [] [("GET /user-agent HTTP/1.1\r\n" : Str), ("Host: x\r\n" : Str)]
     [] ("GET" : Str) [] ("HTTP/1.1" : Str) [] (by decide) (by decide)⟩

/-- Round trip over the map store when the `Content-Length` search succeeds: if the
search of a `POST /files/<name>` request ends on a line whose second field parses as
`body.length`, and the stream holds `body` after the blank line, the POST is answered
201 and binds the path of the file to `body`; a `GET /files/<name>` on the resulting
store is answered 200 with `Content-Length` and body equal to `body`. -/
theorem post_then_get (dir : Str) (gz : Str → Option Str) (m : FileMap)
    (contents : List Str) (body rest : Str) (name v : Str) (more : List Str)
    (i : Nat) (value : Str) (contents2 : List Str) (reader2 v2 : Str) (more2 : List Str)
    (hpost : fields (contents.headD []) =
      ("POST" : Str) :: (("/files/" : Str) ++ name) :: v :: more)
    (hfound : binarySearchFunc contents ("Content-Length" : Str) cmpContains = (i, true))
    (hvalue : (fields (contents.getD i []))[1]? = some value)
    (hlen : atoi value = some (body.length : Int))
    (hget : fields (contents2.headD []) =
      ("GET" : Str) :: (("/files/" : Str) ++ name) :: v2 :: more2) :
    serveRequest (mapEnv dir gz) m contents (body ++ rest) =
      { out := [v ++ (" 201 Created\r\n\r\n" : Str)]
          ++ (if toLower (getHeader ("Connection" : Str) contents) == ("close" : Str)
              then [("Connection: close\r\n" : Str)] else []),
        store := (m.insert (dir ++ ("/" : Str) ++ name.takeWhile (fun c => c != '/')) []).insert
          (dir ++ ("/" : Str) ++ name.takeWhile (fun c => c != '/')) body,
        rest := rest,
        flow := if toLower (getHeader ("Connection" : Str) contents) == ("close" : Str)
          then Flow.stop else Flow.next } ∧
    (serveRequest (mapEnv dir gz)
        (serveRequest (mapEnv dir gz) m contents (body ++ rest)).store contents2 reader2).out =
      [v2 ++ (" 200 OK\r\n" : Str), ("Content-Type: application/octet-stream\r\n" : Str)]
        ++ (if getHeader ("Accept-Encoding" : Str) contents2 ≠ [] then
              [("Content-Encoding: " : Str) ++ getHeader ("Accept-Encoding" : Str) contents2
                ++ ("\r\n" : Str)] else [])
        ++ (if toLower (getHeader ("Connection" : Str) contents2) == ("close" : Str)
              then [("Connection: close\r\n" : Str)] else [])
        ++ [("Content-Length: " : Str) ++ itoa body.length ++ ("\r\n\r\n" : Str), body] := by
  have hp := files_path name
  have hpre := hasPrefix_append ("/files/" : Str) name
  have hsplit := split_files name
  have hpg : ¬ (("POST" : Str) = ("GET" : Str)) := by decide
  have hgp : ¬ (("GET" : Str) = ("POST" : Str)) := by decide
  have h1 : serveRequest (mapEnv dir gz) m contents (body ++ rest) =
      { out := [v ++ (" 201 Created\r\n\r\n" : Str)]
          ++ (if toLower (getHeader ("Connection" : Str) contents) == ("close" : Str)
              then [("Connection: close\r\n" : Str)] else []),
        store := (m.insert (dir ++ ("/" : Str) ++ name.takeWhile (fun c => c != '/')) []).insert
          (dir ++ ("/" : Str) ++ name.takeWhile (fun c => c != '/')) body,
        rest := rest,
        flow := if toLower (getHeader ("Connection" : Str) contents) == ("close" : Str)
          then Flow.stop else Flow.next } := by
    unfold serveRequest
    simp only [hpost, List.getD_cons_zero, List.getD_cons_succ, hp.1, hp.2.1, hp.2.2, hpre,
      hsplit]
    unfold serveFiles
    simp only [hpg, if_false, hfound, hvalue, hlen, postFile, mapEnv]
    have hn : ¬ ((body.length : Int) < 0) := by omega
    simp [hn]
  refine ⟨h1, ?_⟩
  rw [h1]
  unfold serveRequest
  simp only [hget, List.getD_cons_zero, List.getD_cons_succ, hp.1, hp.2.1, hp.2.2, hpre,
    hsplit]
  unfold serveFiles
  simp only [if_true, getFile, mapEnv, FileMap.find_insert, hgp]
  have hl : ¬ (more2.length + 1 + 1 + 1 < 3) := by omega
  simp [hl]


/-- Witness: `hi` posted to `/files/a` with `Content-Length: 2` as the only header,
then read back. -/
theorem post_then_get_witness :
    binarySearchFunc [("POST /files/a HTTP/1.1\r\n" : Str), ("Content-Length: 2\r\n" : Str)]
      ("Content-Length" : Str) cmpContains = (1, true) ∧
    atoi ("2" : Str) = some ((("hi" : Str).length : Nat) : Int) ∧
    (serveRequest demoEnv []
        [("POST /files/a HTTP/1.1\r\n" : Str), ("Content-Length: 2\r\n" : Str)]
        (("hi" : Str) ++ []) =
      { out := [("HTTP/1.1 201 Created\r\n\r\n" : Str)],
        store := [(("/tmp/a" : Str), ("hi" : Str))], rest := [], flow := Flow.next } ∧
    (serveRequest demoEnv
        (serveRequest demoEnv []
          [("POST /files/a HTTP/1.1\r\n" : Str), ("Content-Length: 2\r\n" : Str)]
          (("hi" : Str) ++ [])).store
        [("GET /files/a HTTP/1.1\r\n" : Str)] []).out =
      [("HTTP/1.1 200 OK\r\n" : Str), ("Content-Type: application/octet-stream\r\n" : Str),
        ("Content-Length: 2\r\n\r\n" : Str), ("hi" : Str)]) :=
  ⟨by decide, by decide,
   post_then_get ("/tmp" : Str) (fun s => some (markCompress s)) []
     [("POST /files/a HTTP/1.1\r\n" : Str), ("Content-Length: 2\r\n" : Str)]
     ("hi" : Str) [] ("a" : Str) ("HTTP/1.1" : Str) [] 1 ("2" : Str)
     [("GET /files/a HTTP/1.1\r\n" : Str)] [] ("HTTP/1.1" : Str) []
     (by decide) (by decide) (by decide) (by decide) (by decide)⟩

/-! ## Lemmas on the rounds of a session -/

theorem splitHeadBody_status (v text rest : Str) (hv : '\r' ∉ v) (ht : '\r' ∉ text) :
    splitHeadBody (v ++ (text ++ (("\r\n\r\n" : Str) ++ rest))) = some (v ++ text, rest) := by
  have h : '\r' ∉ v ++ text := by simp [hv, ht]
  have := splitHeadBody_append (v ++ text) (("\r\n\r\n" : Str) ++ rest) h
  rw [splitHeadBody_blank] at this
  simpa using this

theorem headerLines_status (l : Str) (hl : '\r' ∉ l) : headerLines l = [] := by
  have := split_join_crlf l [] (by simpa using hl)
  simp only [join, List.intercalate, List.intersperse, List.flatten_cons, List.flatten_nil,
    List.append_nil] at this
  rw [headerLines, this]
  rfl

theorem version_of_fields (line : Str) (a b v : Str) (more : List Str)
    (h : fields line = a :: b :: v :: more) : '\r' ∉ v :=
  fields_no_cr line v (by simp [h])

/-- One round of `handleConn`, with the rest of the session written as a run of
`handleConn` on what the round left of the stream. -/
theorem handleConn_step {σ : Type} (env : Env σ) (st : σ) (input : Str) :
    handleConn env st input =
      match readLines input [] [] with
      | none => { out := [], store := st, unread := [], exit := Exit.returned }
      | some (contents, rest) =>
        if contents = [] then
          { out := [], store := st, unread := rest, exit := Exit.returned }
        else
          match (serveRequest env st contents rest).flow with
          | Flow.stop =>
            { out := (serveRequest env st contents rest).out,
              store := (serveRequest env st contents rest).store,
              unread := (serveRequest env st contents rest).rest, exit := Exit.returned }
          | Flow.panic =>
            { out := (serveRequest env st contents rest).out,
              store := (serveRequest env st contents rest).store,
              unread := (serveRequest env st contents rest).rest, exit := Exit.panicked }
          | Flow.next =>
            { out := (serveRequest env st contents rest).out ++
                (handleConn env (serveRequest env st contents rest).store
                  (serveRequest env st contents rest).rest).out,
              store := (handleConn env (serveRequest env st contents rest).store
                  (serveRequest env st contents rest).rest).store,
              unread := (handleConn env (serveRequest env st contents rest).store
                  (serveRequest env st contents rest).rest).unread,
              exit := (handleConn env (serveRequest env st contents rest).store
                  (serveRequest env st contents rest).rest).exit } := by
  have h0 : handleConn env st input = serveLoop env (input.length + 1) st input := rfl
  rw [h0, serveLoop]
  cases hr : readLines input [] [] with
  | none => rfl
  | some p =>
    obtain ⟨contents, rest⟩ := p
    have hlen := readLines_length _ _ _ _ _ hr
    have hrest := serveRequest_rest env st contents rest
    simp only []
    split
    · rfl
    · rw [serveLoop_fuel env input.length ((serveRequest env st contents rest).rest.length + 1)
        _ _ (by omega) (by omega)]
      rfl

theorem handleConn_nil {σ : Type} (env : Env σ) (st : σ) :
    handleConn env st [] = { out := [], store := st, unread := [], exit := Exit.returned } := by
  rfl

theorem serveRequest_echo_plain {σ : Type} (env : Env σ) (st : σ) (contents : List Str)
    (reader : Str) (method s v : Str) (more : List Str)
    (hreq : fields (contents.headD []) = method :: (("/echo/" : Str) ++ s) :: v :: more)
    (hae : getHeader ("Accept-Encoding" : Str) contents = []) :
    serveRequest env st contents reader =
      { out := [v ++ (" 200 OK\r\n" : Str), ("Content-Type: text/plain\r\n" : Str)]
          ++ (if toLower (getHeader ("Connection" : Str) contents) == ("close" : Str)
              then [("Connection: close\r\n" : Str)] else [])
          ++ [("Content-Length: " : Str) ++ itoa (s.takeWhile (fun c => c != '/')).length
                ++ ("\r\n\r\n" : Str),
              s.takeWhile (fun c => c != '/')],
        store := st, rest := reader,
        flow := if toLower (getHeader ("Connection" : Str) contents) == ("close" : Str)
          then Flow.stop else Flow.next } := by
  have hsplit := split_echo s
  have hne := echo_ne_root s
  have hpre := hasPrefix_append ("/echo/" : Str) s
  unfold serveRequest
  simp only [hreq, hae, List.getD_cons_zero, List.getD_cons_succ, hne, hpre, hsplit]
  simp [contains]

theorem serveRequest_userAgent {σ : Type} (env : Env σ) (st : σ) (contents : List Str)
    (reader : Str) (method p v : Str) (more : List Str)
    (hreq : fields (contents.headD []) = method :: (("/user-agent" : Str) ++ p) :: v :: more)
    (hua : getHeader ("User-Agent" : Str) contents ≠ []) :
    serveRequest env st contents reader =
      { out := [v ++ (" 200 OK\r\n" : Str), ("Content-Type: text/plain\r\n" : Str)]
          ++ (if getHeader ("Accept-Encoding" : Str) contents ≠ [] then
                [("Content-Encoding: " : Str) ++ getHeader ("Accept-Encoding" : Str) contents
                  ++ ("\r\n" : Str)] else [])
          ++ (if toLower (getHeader ("Connection" : Str) contents) == ("close" : Str)
              then [("Connection: close\r\n" : Str)] else [])
          ++ [("Content-Length: " : Str)
                ++ itoa (getHeader ("User-Agent" : Str) contents).length ++ ("\r\n\r\n" : Str),
              getHeader ("User-Agent" : Str) contents],
        store := st, rest := reader,
        flow := if toLower (getHeader ("Connection" : Str) contents) == ("close" : Str)
          then Flow.stop else Flow.next } := by
  have hp := userAgent_path p
  have hpre := hasPrefix_append ("/user-agent" : Str) p
  unfold serveRequest
  simp only [hreq, List.getD_cons_zero, List.getD_cons_succ, hp.1, hp.2, hpre, hua]
  have hl : ¬ (more.length + 1 + 1 + 1 < 3) := by omega
  simp [hl]

theorem readLines_frag (frag : Str) (h : '\n' ∉ frag) (contents : List Str)
    (pre : Str) : readLines frag contents pre = none := by
  induction frag generalizing pre with
  | nil => rfl
  | cons c cs ih =>
    have hc : c ≠ '\n' := fun e => h (List.mem_cons.2 (Or.inl e.symm))
    have hcs : '\n' ∉ cs := fun e => h (List.mem_cons_of_mem _ e)
    simp [readLines, hc, ih hcs]

theorem readLines_lines_frag (ls : List Str)
    (hls : ∀ l ∈ ls, isLine l = true ∧ l ≠ ("\r\n" : Str))
    (frag : Str) (h : '\n' ∉ frag) (contents : List Str) :
    readLines (ls.flatten ++ frag) contents [] = none := by
  induction ls generalizing contents with
  | nil => simpa using readLines_frag frag h contents []
  | cons l ls ih =>
    have h1 := hls l (by simp)
    have h2 : ∀ l ∈ ls, isLine l = true ∧ l ≠ ("\r\n" : Str) :=
      fun x hx => hls x (by simp [hx])
    rw [List.flatten_cons, List.append_assoc, readLines_line l h1.1, if_neg h1.2, ih h2]

theorem readLines_blank (rest : Str) :
    readLines (("\r\n" : Str) ++ rest) [] [] = some ([], rest) := by
  simp [readLines]

theorem split_index_of_hasPrefix (path p : Str) (h : hasPrefix path p = true) :
    ∃ s, path = p ++ s := by
  obtain ⟨s, hs⟩ := (hasPrefix_iff path p).1 h
  exact ⟨s, hs.symm⟩

theorem serveFiles_nopost {σ : Type} (env : Env σ) (st : σ) (contents : List Str)
    (reader method v filename : Str) (ce cc : List Str) (after : Flow)
    (hm : method ≠ ("POST" : Str)) :
    serveFiles env st contents reader method v filename ce cc after =
      { out := (serveFiles env st contents [] method v filename ce cc after).out,
        store := st, rest := reader, flow := after } := by
  unfold serveFiles
  simp only [hm, if_false, ite_self]

theorem serveFiles_post_absent {σ : Type} (env : Env σ) (st : σ) (contents : List Str)
    (reader v filename : Str) (ce cc : List Str) (after : Flow)
    (hf : (binarySearchFunc contents ("Content-Length" : Str) cmpContains).2 = false) :
    serveFiles env st contents reader ("POST" : Str) v filename ce cc after =
      { out := (serveFiles env st contents [] ("POST" : Str) v filename ce cc after).out,
        store := st, rest := reader, flow := after } := by
  have hpg : ¬ (("POST" : Str) = ("GET" : Str)) := by decide
  unfold serveFiles
  simp only [hpg, if_false, hf, Bool.not_false, if_true, Bool.false_eq_true]

theorem serveRequest_bodyless {σ : Type} (env : Env σ) (st : σ) (contents : List Str)
    (reader : Str) (h3 : 3 ≤ (fields (contents.headD [])).length)
    (hb : readsBody contents = false) :
    serveRequest env st contents reader =
      { out := (serveRequest env st contents []).out, store := st, rest := reader,
        flow := if toLower (getHeader ("Connection" : Str) contents) == ("close" : Str)
          then Flow.stop else Flow.next } := by
  have hl : ¬ ((fields (contents.headD [])).length < 3) := by omega
  unfold serveRequest
  simp only [hl, if_false]
  split
  · rfl
  · split
    · rename_i hecho
      obtain ⟨s, hs⟩ := split_index_of_hasPrefix _ _ hecho
      rw [hs, split_echo]
    · split
      · split <;> rfl
      · split
        · rename_i hfiles
          obtain ⟨s, hs⟩ := split_index_of_hasPrefix _ _ hfiles
          rw [hs, split_files]
          simp only []
          by_cases hm : (fields (contents.headD [])).getD 0 [] = ("POST" : Str)
          · have hf : (binarySearchFunc contents ("Content-Length" : Str) cmpContains).2
                = false := by
              rw [readsBody, hm, hfiles] at hb
              simpa using hb
            rw [hm, serveFiles_post_absent _ _ _ reader _ _ _ _ _ hf]
          · rw [serveFiles_nopost _ _ _ reader _ _ _ _ _ _ hm]
        · rfl

/-- When no line of the request has `close` as its `Connection` value in any letter
case, the handler does not take the request as asking to close. -/
theorem shouldClose_false (contents : List Str)
    (h : ∀ l ∈ contents, toLower (headerValue ("Connection" : Str) l) ≠ ("close" : Str)) :
    (toLower (getHeader ("Connection" : Str) contents) == ("close" : Str)) = false := by
  simp only [getHeader]
  cases hfound : (binarySearchFunc contents ("Connection" : Str) cmpContains).2 with
  | false =>
    simp only [Bool.not_false, if_true]
    decide
  | true =>
    obtain ⟨e, he, _⟩ := binarySearchFunc_found contents _ cmpContains hfound
    have hmem : e ∈ contents := List.getElem?_mem he
    have hgetD : contents.getD
        (binarySearchFunc contents ("Connection" : Str) cmpContains).1 [] = e := by
      rw [List.getD_eq_getElem?_getD, he]; rfl
    rw [hgetD]
    have hne : ¬ (("Connection" : Str) = ("Accept-Encoding" : Str)) := by decide
    simp only [Bool.not_true, Bool.false_eq_true, if_false, hne]
    have := h e hmem
    simpa [headerValue] using this

/-! ## The claims, continued -/

/-- C11, as amended: over the map store, a `GET /files/<name>` request is answered
`404 Not Found` with an empty body, the store unchanged, whenever the store has no
entry for the file name the handler takes from the path, the part of `<name>` before
its first `/` (all of `<name>` when it holds none). -/
theorem get_missing_file (dir : Str) (gz : Str → Option Str) (m : FileMap)
    (contents : List Str) (reader name v : Str) (more : List Str)
    (hreq : fields (contents.headD []) =
      ("GET" : Str) :: (("/files/" : Str) ++ name) :: v :: more)
    (hnone : m.find (dir ++ ("/" : Str) ++ name.takeWhile (fun c => c != '/')) = none) :
    serveRequest (mapEnv dir gz) m contents reader =
      { out := [v ++ (" 404 Not Found\r\n\r\n" : Str)], store := m, rest := reader,
        flow := if toLower (getHeader ("Connection" : Str) contents) == ("close" : Str)
          then Flow.stop else Flow.next } ∧
    splitHeadBody ([v ++ (" 404 Not Found\r\n\r\n" : Str)] : List Str).flatten =
      some (v ++ (" 404 Not Found" : Str), []) := by
  have hp := files_path name
  have hpre := hasPrefix_append ("/files/" : Str) name
  have hsplit := split_files name
  have hv := version_of_fields _ _ _ _ _ hreq
  constructor
  · unfold serveRequest
    simp only [hreq, List.getD_cons_zero, List.getD_cons_succ, hp.1, hp.2.1, hp.2.2, hpre,
      hsplit]
    unfold serveFiles
    simp only [if_true, getFile, mapEnv, hnone]
    have hl : ¬ (more.length + 1 + 1 + 1 < 3) := by omega
    simp [hl]
  · have := splitHeadBody_status v (" 404 Not Found" : Str) [] hv (by decide)
    simpa using this

/-- Witness of C11: the store holds `b` only and `a` is asked for. -/
theorem get_missing_file_witness :
    FileMap.find [(("/tmp/b" : Str), ("hi" : Str))]
      (("/tmp" : Str) ++ ("/" : Str) ++ (("a" : Str)).takeWhile (fun c => c != '/')) = none ∧
    (serveRequest demoEnv [(("/tmp/b" : Str), ("hi" : Str))]
        [("GET /files/a HTTP/1.1\r\n" : Str), ("Host: x\r\n" : Str)] [] =
      { out := [("HTTP/1.1 404 Not Found\r\n\r\n" : Str)],
        store := [(("/tmp/b" : Str), ("hi" : Str))], rest := [], flow := Flow.next } ∧
     splitHeadBody ([("HTTP/1.1 404 Not Found\r\n\r\n" : Str)] : List Str).flatten =
      some (("HTTP/1.1 404 Not Found" : Str), [])) :=
  ⟨by decide,
   get_missing_file ("/tmp" : Str) (fun s => some (markCompress s))
     [(("/tmp/b" : Str), ("hi" : Str))]
     [("GET /files/a HTTP/1.1\r\n" : Str), ("Host: x\r\n" : Str)] [] ("a" : Str)
     ("HTTP/1.1" : Str) [] (by decide) (by decide)⟩

/-- Counterexample to C11 as stated: the store holds `a` and has no entry for `a/b`,
yet `GET /files/a/b` is answered 200 with the content of `a`. -/
theorem get_missing_file_counterexample :
    FileMap.find [(("/tmp/a" : Str), ("hi" : Str))] ("/tmp/a/b" : Str) = none ∧
    (handleConn demoEnv [(("/tmp/a" : Str), ("hi" : Str))]
      ("GET /files/a/b HTTP/1.1\r\n\r\n" : Str)).out =
      [("HTTP/1.1 200 OK\r\n" : Str), ("Content-Type: application/octet-stream\r\n" : Str),
        ("Content-Length: 2\r\n\r\n" : Str), ("hi" : Str)] := by
  decide

/-- C12: on the input `GET /echo/abc HTTP/1.1\r\nHost: x\r\n\r\n`, in every environment
and file-system state, the server makes four writes whose concatenation is exactly
`HTTP/1.1 200 OK\r\nContent-Type: text/plain\r\nContent-Length: 3\r\n\r\nabc`, then
finds the stream at its end and returns; nothing else is written. -/
theorem echo_abc_scenario {σ : Type} (env : Env σ) (st : σ) :
    handleConn env st ("GET /echo/abc HTTP/1.1\r\nHost: x\r\n\r\n" : Str) =
      { out := [("HTTP/1.1 200 OK\r\n" : Str), ("Content-Type: text/plain\r\n" : Str),
          ("Content-Length: 3\r\n\r\n" : Str), ("abc" : Str)],
        store := st, unread := [], exit := Exit.returned } ∧
    ([("HTTP/1.1 200 OK\r\n" : Str), ("Content-Type: text/plain\r\n" : Str),
          ("Content-Length: 3\r\n\r\n" : Str), ("abc" : Str)] : List Str).flatten =
      ("HTTP/1.1 200 OK\r\nContent-Type: text/plain\r\nContent-Length: 3\r\n\r\nabc" : Str) := by
  refine ⟨?_, by decide⟩
  have hread : readLines ("GET /echo/abc HTTP/1.1\r\nHost: x\r\n\r\n" : Str) [] [] =
      some ([("GET /echo/abc HTTP/1.1\r\n" : Str), ("Host: x\r\n" : Str)], []) := by decide
  have hs := serveRequest_echo_plain env st
    [("GET /echo/abc HTTP/1.1\r\n" : Str), ("Host: x\r\n" : Str)] []
    ("GET" : Str) ("abc" : Str) ("HTTP/1.1" : Str) [] (by decide) (by decide)
  have hc : (toLower (getHeader ("Connection" : Str)
      [("GET /echo/abc HTTP/1.1\r\n" : Str), ("Host: x\r\n" : Str)]) == ("close" : Str)) = false := by
    decide
  rw [hc] at hs
  rw [handleConn_step, hread]
  simp only [hs, handleConn_nil]
  rfl

/-- C13, as amended: on the input
`GET /user-agent HTTP/1.1\r\nUser-Agent: curl/7\r\n\r\n` the server writes exactly
`HTTP/1.1 200 OK\r\nContent-Type: text/plain\r\nContent-Length: 6\r\n\r\ncurl/7` (the
value `curl/7` has six bytes); in general, for a path with prefix `/user-agent` and a
lookup of `User-Agent` that yields a value that is not empty, the body is that value as
it stands, also when a `Content-Encoding` header is declared, and `Content-Length` is
its length. -/
theorem user_agent_scenario {σ : Type} (env : Env σ) (st : σ) (contents : List Str)
    (reader : Str) (method p v : Str) (more : List Str)
    (hreq : fields (contents.headD []) = method :: (("/user-agent" : Str) ++ p) :: v :: more)
    (hua : getHeader ("User-Agent" : Str) contents ≠ []) :
    (handleConn env st ("GET /user-agent HTTP/1.1\r\nUser-Agent: curl/7\r\n\r\n" : Str) =
      { out := [("HTTP/1.1 200 OK\r\n" : Str), ("Content-Type: text/plain\r\n" : Str),
          ("Content-Length: 6\r\n\r\n" : Str), ("curl/7" : Str)],
        store := st, unread := [], exit := Exit.returned } ∧
     ([("HTTP/1.1 200 OK\r\n" : Str), ("Content-Type: text/plain\r\n" : Str),
          ("Content-Length: 6\r\n\r\n" : Str), ("curl/7" : Str)] : List Str).flatten =
      ("HTTP/1.1 200 OK\r\nContent-Type: text/plain\r\nContent-Length: 6\r\n\r\ncurl/7" : Str)) ∧
    serveRequest env st contents reader =
      { out := [v ++ (" 200 OK\r\n" : Str), ("Content-Type: text/plain\r\n" : Str)]
          ++ (if getHeader ("Accept-Encoding" : Str) contents ≠ [] then
                [("Content-Encoding: " : Str) ++ getHeader ("Accept-Encoding" : Str) contents
                  ++ ("\r\n" : Str)] else [])
          ++ (if toLower (getHeader ("Connection" : Str) contents) == ("close" : Str)
              then [("Connection: close\r\n" : Str)] else [])
          ++ [("Content-Length: " : Str)
                ++ itoa (getHeader ("User-Agent" : Str) contents).length ++ ("\r\n\r\n" : Str),
              getHeader ("User-Agent" : Str) contents],
        store := st, rest := reader,
        flow := if toLower (getHeader ("Connection" : Str) contents) == ("close" : Str)
          then Flow.stop else Flow.next } := by
  refine ⟨⟨?_, by decide⟩, serveRequest_userAgent env st contents reader method p v more hreq hua⟩
  have hread : readLines ("GET /user-agent HTTP/1.1\r\nUser-Agent: curl/7\r\n\r\n" : Str) [] [] =
      some ([("GET /user-agent HTTP/1.1\r\n" : Str), ("User-Agent: curl/7\r\n" : Str)], []) := by
    decide
  have hs := serveRequest_userAgent env st
    [("GET /user-agent HTTP/1.1\r\n" : Str), ("User-Agent: curl/7\r\n" : Str)] []
    ("GET" : Str) [] ("HTTP/1.1" : Str) [] (by decide) (by decide)
  have hc : (toLower (getHeader ("Connection" : Str)
      [("GET /user-agent HTTP/1.1\r\n" : Str), ("User-Agent: curl/7\r\n" : Str)])
        == ("close" : Str)) = false := by
    decide
  have hae : getHeader ("Accept-Encoding" : Str)
      [("GET /user-agent HTTP/1.1\r\n" : Str), ("User-Agent: curl/7\r\n" : Str)] = [] := by
    decide
  have hu : getHeader ("User-Agent" : Str)
      [("GET /user-agent HTTP/1.1\r\n" : Str), ("User-Agent: curl/7\r\n" : Str)]
        = ("curl/7" : Str) := by
    decide
  rw [hc, hae, hu] at hs
  rw [handleConn_step, hread]
  simp only [hs, handleConn_nil]
  rfl

/-- Witness of C13: a longer `User-Agent` value, with `Connection: close`. -/
theorem user_agent_scenario_witness :
    getHeader ("User-Agent" : Str)
      [("GET /user-agent HTTP/1.1\r\n" : Str), ("User-Agent: Mozilla/5.0 (X11)\r\n" : Str),
        ("Connection: close\r\n" : Str)] ≠ [] ∧
    serveRequest demoEnv []
      [("GET /user-agent HTTP/1.1\r\n" : Str), ("User-Agent: Mozilla/5.0 (X11)\r\n" : Str),
        ("Connection: close\r\n" : Str)] [] =
      { out := [("HTTP/1.1 200 OK\r\n" : Str), ("Content-Type: text/plain\r\n" : Str),
          ("Connection: close\r\n" : Str), ("Content-Length: 17\r\n\r\n" : Str),
          ("Mozilla/5.0 (X11)" : Str)],
        store := [], rest := [], flow := Flow.stop } :=
  ⟨by decide,
   (user_agent_scenario demoEnv []
      [("GET /user-agent HTTP/1.1\r\n" : Str), ("User-Agent: Mozilla/5.0 (X11)\r\n" : Str),
        ("Connection: close\r\n" : Str)] []
      ("GET" : Str) [] ("HTTP/1.1" : Str) [] (by decide) (by decide)).2⟩

/-- Counterexample to C13 as stated: the bytes written for the `curl/7` request declare
`Content-Length: 6`, so they differ from the bytes of the claim, which declare 7. -/
theorem user_agent_scenario_counterexample :
    (handleConn demoEnv []
      ("GET /user-agent HTTP/1.1\r\nUser-Agent: curl/7\r\n\r\n" : Str)).out.flatten =
      ("HTTP/1.1 200 OK\r\nContent-Type: text/plain\r\nContent-Length: 6\r\n\r\ncurl/7" : Str) ∧
    (handleConn demoEnv []
      ("GET /user-agent HTTP/1.1\r\nUser-Agent: curl/7\r\n\r\n" : Str)).out.flatten ≠
      ("HTTP/1.1 200 OK\r\nContent-Type: text/plain\r\nContent-Length: 7\r\n\r\ncurl/7" : Str) ∧
    (("curl/7" : Str)).length = 6 := by
  decide

/-- C14: a stream that ends before a blank line was read (complete lines, none of them
`\r\n`, then a fragment without line feed, possibly empty) and a stream whose first
line is the blank line both end the session without any write; in the second case
the bytes after the blank line stay unread.  The same holds at any later round of
the request loop. -/
theorem silent_close {σ : Type} (env : Env σ) (st : σ) (lines : List Str) (frag rest : Str)
    (hlines : ∀ l ∈ lines, isLine l = true ∧ l ≠ ("\r\n" : Str))
    (hfrag : '\n' ∉ frag) :
    (handleConn env st (lines.flatten ++ frag) =
        { out := [], store := st, unread := [], exit := Exit.returned } ∧
      handleConn env st (("\r\n" : Str) ++ rest) =
        { out := [], store := st, unread := rest, exit := Exit.returned }) ∧
    ∀ fuel,
      serveLoop env (fuel + 1) st (lines.flatten ++ frag) =
        { out := [], store := st, unread := [], exit := Exit.returned } ∧
      serveLoop env (fuel + 1) st (("\r\n" : Str) ++ rest) =
        { out := [], store := st, unread := rest, exit := Exit.returned } := by
  have h1 := readLines_lines_frag lines hlines frag hfrag []
  have h2 := readLines_blank rest
  have key : ∀ fuel,
      serveLoop env (fuel + 1) st (lines.flatten ++ frag) =
        { out := [], store := st, unread := [], exit := Exit.returned } ∧
      serveLoop env (fuel + 1) st (("\r\n" : Str) ++ rest) =
        { out := [], store := st, unread := rest, exit := Exit.returned } := by
    intro fuel
    constructor
    · simp only [serveLoop, h1]
    · simp only [serveLoop, h2, if_true]
  exact ⟨⟨(key _).1, (key _).2⟩, key⟩

/-- Witness of C14: a header block cut off in its third line, and a stream that starts
with the blank line. -/
theorem silent_close_witness :
    (handleConn demoEnv []
        (([("GET / HTTP/1.1\r\n" : Str), ("Host: x\r\n" : Str)] : List Str).flatten
          ++ ("Accept: text" : Str)) =
        { out := [], store := [], unread := [], exit := Exit.returned } ∧
      handleConn demoEnv [] (("\r\n" : Str) ++ ("GET / HTTP/1.1\r\n\r\n" : Str)) =
        { out := [], store := [], unread := ("GET / HTTP/1.1\r\n\r\n" : Str),
          exit := Exit.returned }) :=
  (silent_close demoEnv [] [("GET / HTTP/1.1\r\n" : Str), ("Host: x\r\n" : Str)]
    ("Accept: text" : Str) ("GET / HTTP/1.1\r\n\r\n" : Str) (by decide) (by decide)).1

/-- C15: let the line the search locates be `Accept-Encoding: `, then a value, then
the carriage returns and line feeds that end the line, the value being tokens joined
with `", "` (none of them holding `", "`) and not ending in a carriage return or line
feed.  Then `getHeader` for `Accept-Encoding` returns the tokens that are `gzip` with
only spaces around them, as they stand and in their order, joined with `", "`; so it
returns the empty string when there is no such token.  The search locates the line
when no line before it contains `Accept-Encoding` and every line after it does.  A
located line without the prefix is split whole.  `getHeader` returns the empty string
when the search locates nothing, in particular when no line contains the name.  The
test `isGzipToken` holds exactly of `gzip` with spaces before and after it. -/
theorem acceptEncoding_negotiation (contents : List Str) :
    (∀ i tokens tail,
      binarySearchFunc contents ("Accept-Encoding" : Str) cmpContains = (i, true) →
      contents[i]? = some (("Accept-Encoding: " : Str)
        ++ List.intercalate (", " : Str) tokens ++ tail) →
      (∀ t ∈ tokens, ¬ (", " : Str) <:+: t) →
      ¬ (['\r'] : Str) <:+ List.intercalate (", " : Str) tokens →
      ¬ (['\n'] : Str) <:+ List.intercalate (", " : Str) tokens →
      (∀ c ∈ tail, c = '\r' ∨ c = '\n') →
      getHeader ("Accept-Encoding" : Str) contents =
          List.intercalate (", " : Str) (tokens.filter isGzipToken) ∧
        ((∀ t ∈ tokens, isGzipToken t = false) →
          getHeader ("Accept-Encoding" : Str) contents = [])) ∧
    (∀ pre post tokens tail,
      contents = pre ++ (("Accept-Encoding: " : Str)
        ++ List.intercalate (", " : Str) tokens ++ tail) :: post →
      (∀ l ∈ pre, contains l ("Accept-Encoding" : Str) = false) →
      (∀ l ∈ post, contains l ("Accept-Encoding" : Str) = true) →
      (∀ t ∈ tokens, ¬ (", " : Str) <:+: t) →
      ¬ (['\r'] : Str) <:+ List.intercalate (", " : Str) tokens →
      ¬ (['\n'] : Str) <:+ List.intercalate (", " : Str) tokens →
      (∀ c ∈ tail, c = '\r' ∨ c = '\n') →
      getHeader ("Accept-Encoding" : Str) contents =
        List.intercalate (", " : Str) (tokens.filter isGzipToken)) ∧
    (∀ i tokens tail,
      binarySearchFunc contents ("Accept-Encoding" : Str) cmpContains = (i, true) →
      contents[i]? = some (List.intercalate (", " : Str) tokens ++ tail) →
      ¬ ("Accept-Encoding: " : Str) <+: List.intercalate (", " : Str) tokens →
      (∀ t ∈ tokens, ¬ (", " : Str) <:+: t) →
      ¬ (['\r'] : Str) <:+ List.intercalate (", " : Str) tokens →
      ¬ (['\n'] : Str) <:+ List.intercalate (", " : Str) tokens →
      (∀ c ∈ tail, c = '\r' ∨ c = '\n') →
      getHeader ("Accept-Encoding" : Str) contents =
        List.intercalate (", " : Str) (tokens.filter isGzipToken)) ∧
    ((binarySearchFunc contents ("Accept-Encoding" : Str) cmpContains).2 = false →
      getHeader ("Accept-Encoding" : Str) contents = []) ∧
    ((∀ l ∈ contents, contains l ("Accept-Encoding" : Str) = false) →
      getHeader ("Accept-Encoding" : Str) contents = []) ∧
    (∀ t, isGzipToken t = true ↔
      ∃ a b, t = List.replicate a ' ' ++ (("gzip" : Str) ++ List.replicate b ' ')) := by
  refine ⟨?_, ?_, ?_, ?_, getHeader_absent _ contents, isGzipToken_iff⟩
  · intro i tokens tail hs hl htok hcr hlf htail
    have h := getHeader_acceptEncoding_value contents i _ tokens tail hs hl (Or.inl rfl)
      htok hcr hlf htail
    refine ⟨h, fun hnone => ?_⟩
    rw [h, List.filter_eq_nil_iff.2 (fun t ht => by simp [hnone t ht])]
    rfl
  · intro pre post tokens tail hc hpre hpost htok hcr hlf htail
    rw [hc]
    exact getHeader_acceptEncoding_inOrder pre post tokens tail hpre hpost htok hcr hlf htail
  · intro i tokens tail hs hl hno htok hcr hlf htail
    exact getHeader_acceptEncoding_value contents i [] tokens tail hs
      (by rw [List.nil_append]; exact hl) (Or.inr ⟨rfl, hno⟩) htok hcr hlf htail
  · intro h
    simp only [getHeader, h, Bool.not_false, if_true]

/-- Witness of C15: two of three tokens survive, with the spaces they came with, and
`getHeader` evaluated on the same lines gives the same bytes; no token survives; the
header as the last of three lines; a located line without the prefix, which is one
token and not `gzip`; no line with the name. -/
theorem acceptEncoding_negotiation_witness :
    getHeader ("Accept-Encoding" : Str)
      [("GET / HTTP/1.1\r\n" : Str), ("Accept-Encoding: gzip, br,  gzip \r\n" : Str)] =
      List.intercalate (", " : Str)
        ([("gzip" : Str), ("br" : Str), (" gzip " : Str)].filter
          isGzipToken) ∧
    getHeader ("Accept-Encoding" : Str)
      [("GET / HTTP/1.1\r\n" : Str), ("Accept-Encoding: gzip, br,  gzip \r\n" : Str)] =
      ("gzip,  gzip " : Str) ∧
    getHeader ("Accept-Encoding" : Str)
      [("GET / HTTP/1.1\r\n" : Str), ("Accept-Encoding: br, deflate\r\n" : Str)] = [] ∧
    getHeader ("Accept-Encoding" : Str)
      [("GET / HTTP/1.1\r\n" : Str), ("Host: x\r\n" : Str),
        ("Accept-Encoding: gzip\r\n" : Str)] = ("gzip" : Str) ∧
    getHeader ("Accept-Encoding" : Str)
      [("GET / HTTP/1.1\r\n" : Str), ("X-Accept-Encoding: gzip\r\n" : Str)] = [] ∧
    getHeader ("Accept-Encoding" : Str)
      [("GET / HTTP/1.1\r\n" : Str), ("Host: x\r\n" : Str)] = [] :=
  ⟨((acceptEncoding_negotiation
      [("GET / HTTP/1.1\r\n" : Str),
        ("Accept-Encoding: gzip, br,  gzip \r\n" : Str)]).1
      1 [("gzip" : Str), ("br" : Str), (" gzip " : Str)] ("\r\n" : Str)
      (by decide) (by decide) (by decide) (by decide) (by decide) (by decide)).1,
   by decide,
   ((acceptEncoding_negotiation
      [("GET / HTTP/1.1\r\n" : Str), ("Accept-Encoding: br, deflate\r\n" : Str)]).1
      1 [("br" : Str), ("deflate" : Str)] ("\r\n" : Str)
      (by decide) (by decide) (by decide) (by decide) (by decide) (by decide)).2 (by decide),
   (acceptEncoding_negotiation
      [("GET / HTTP/1.1\r\n" : Str), ("Host: x\r\n" : Str),
        ("Accept-Encoding: gzip\r\n" : Str)]).2.1
      [("GET / HTTP/1.1\r\n" : Str), ("Host: x\r\n" : Str)] [] [("gzip" : Str)]
      ("\r\n" : Str)
      (by decide) (by decide) (by decide) (by decide) (by decide) (by decide) (by decide),
   (acceptEncoding_negotiation
      [("GET / HTTP/1.1\r\n" : Str), ("X-Accept-Encoding: gzip\r\n" : Str)]).2.2.1
      1 [("X-Accept-Encoding: gzip" : Str)] ("\r\n" : Str)
      (by decide) (by decide) (by decide) (by decide) (by decide) (by decide) (by decide),
   (acceptEncoding_negotiation [("GET / HTTP/1.1\r\n" : Str), ("Host: x\r\n" : Str)]).2.2.2.2.1
      (by decide)⟩

/-- C16: for every request with at least three fields, whatever its method and headers,
the response is `<version> 200 OK` when the path is exactly `/`, and
`<version> 404 Not Found` when the path is not `/` and has none of the prefixes
`/echo/`, `/user-agent`, `/files/`; in both cases the status line is followed by the
blank line at once, so the response has no header line at all. -/
theorem route_root_and_default {σ : Type} (env : Env σ) (st : σ) (contents : List Str)
    (reader : Str) (method path v : Str) (more : List Str)
    (hreq : fields (contents.headD []) = method :: path :: v :: more) :
    (path = ("/" : Str) →
      serveRequest env st contents reader =
        { out := [v ++ (" 200 OK\r\n\r\n" : Str)]
            ++ (if toLower (getHeader ("Connection" : Str) contents) == ("close" : Str)
                then [("Connection: close\r\n" : Str)] else []),
          store := st, rest := reader,
          flow := if toLower (getHeader ("Connection" : Str) contents) == ("close" : Str)
            then Flow.stop else Flow.next } ∧
      (∃ body, splitHeadBody (serveRequest env st contents reader).out.flatten =
        some (v ++ (" 200 OK" : Str), body)) ∧
      headerLines (v ++ (" 200 OK" : Str)) = []) ∧
    (path ≠ ("/" : Str) → hasPrefix path ("/echo/" : Str) = false →
      hasPrefix path ("/user-agent" : Str) = false →
      hasPrefix path ("/files/" : Str) = false →
      serveRequest env st contents reader =
        { out := [v ++ (" 404 Not Found\r\n\r\n" : Str)]
            ++ (if toLower (getHeader ("Connection" : Str) contents) == ("close" : Str)
                then [("Connection: close\r\n" : Str)] else []),
          store := st, rest := reader,
          flow := if toLower (getHeader ("Connection" : Str) contents) == ("close" : Str)
            then Flow.stop else Flow.next } ∧
      (∃ body, splitHeadBody (serveRequest env st contents reader).out.flatten =
        some (v ++ (" 404 Not Found" : Str), body)) ∧
      headerLines (v ++ (" 404 Not Found" : Str)) = []) := by
  have hv := version_of_fields _ _ _ _ _ hreq
  have hl : ¬ (more.length + 1 + 1 + 1 < 3) := by omega
  constructor
  · intro hroot
    have h1 : serveRequest env st contents reader =
        { out := [v ++ (" 200 OK\r\n\r\n" : Str)]
            ++ (if toLower (getHeader ("Connection" : Str) contents) == ("close" : Str)
                then [("Connection: close\r\n" : Str)] else []),
          store := st, rest := reader,
          flow := if toLower (getHeader ("Connection" : Str) contents) == ("close" : Str)
            then Flow.stop else Flow.next } := by
      unfold serveRequest
      simp only [hreq, List.getD_cons_zero, List.getD_cons_succ, hroot]
      simp [hl]
    refine ⟨h1, ?_, headerLines_status _ (by simp [hv])⟩
    rw [h1]
    refine ⟨((if toLower (getHeader ("Connection" : Str) contents) == ("close" : Str)
                then [("Connection: close\r\n" : Str)] else []) : List Str).flatten, ?_⟩
    have := splitHeadBody_status v (" 200 OK" : Str)
      ((if toLower (getHeader ("Connection" : Str) contents) == ("close" : Str)
                then [("Connection: close\r\n" : Str)] else []) : List Str).flatten hv (by decide)
    simpa using this
  · intro h0 h1 h2 h3
    have h4 : serveRequest env st contents reader =
        { out := [v ++ (" 404 Not Found\r\n\r\n" : Str)]
            ++ (if toLower (getHeader ("Connection" : Str) contents) == ("close" : Str)
                then [("Connection: close\r\n" : Str)] else []),
          store := st, rest := reader,
          flow := if toLower (getHeader ("Connection" : Str) contents) == ("close" : Str)
            then Flow.stop else Flow.next } := by
      unfold serveRequest
      simp only [hreq, List.getD_cons_zero, List.getD_cons_succ, h0, h1, h2, h3]
      simp [hl]
    refine ⟨h4, ?_, headerLines_status _ (by simp [hv])⟩
    rw [h4]
    refine ⟨((if toLower (getHeader ("Connection" : Str) contents) == ("close" : Str)
                then [("Connection: close\r\n" : Str)] else []) : List Str).flatten, ?_⟩
    have := splitHeadBody_status v (" 404 Not Found" : Str)
      ((if toLower (getHeader ("Connection" : Str) contents) == ("close" : Str)
                then [("Connection: close\r\n" : Str)] else []) : List Str).flatten hv (by decide)
    simpa using this

/-- Witness of C16: `DELETE /` is answered 200 and `GET /echo` (no slash after `echo`)
404, the latter in spite of its `Accept-Encoding` header without any header. -/
theorem route_root_and_default_witness :
    (serveRequest demoEnv [] [("DELETE / HTTP/1.1\r\n" : Str), ("Host: x\r\n" : Str)] [] =
        { out := [("HTTP/1.1 200 OK\r\n\r\n" : Str)], store := [], rest := [],
          flow := Flow.next } ∧
      (∃ body, splitHeadBody
          (serveRequest demoEnv [] [("DELETE / HTTP/1.1\r\n" : Str), ("Host: x\r\n" : Str)]
            []).out.flatten = some (("HTTP/1.1 200 OK" : Str), body)) ∧
      headerLines ("HTTP/1.1 200 OK" : Str) = []) ∧
    (serveRequest demoEnv [] [("GET /echo HTTP/1.0\r\n" : Str), ("Accept-Encoding: gzip\r\n" : Str)]
        [] =
        { out := [("HTTP/1.0 404 Not Found\r\n\r\n" : Str)], store := [], rest := [],
          flow := Flow.next } ∧
      (∃ body, splitHeadBody
          (serveRequest demoEnv []
            [("GET /echo HTTP/1.0\r\n" : Str), ("Accept-Encoding: gzip\r\n" : Str)]
            []).out.flatten = some (("HTTP/1.0 404 Not Found" : Str), body)) ∧
      headerLines ("HTTP/1.0 404 Not Found" : Str) = []) :=
  ⟨(route_root_and_default demoEnv [] [("DELETE / HTTP/1.1\r\n" : Str), ("Host: x\r\n" : Str)]
      [] ("DELETE" : Str) ("/" : Str) ("HTTP/1.1" : Str) [] (by decide)).1 rfl,
   (route_root_and_default demoEnv []
      [("GET /echo HTTP/1.0\r\n" : Str), ("Accept-Encoding: gzip\r\n" : Str)]
      [] ("GET" : Str) ("/echo" : Str) ("HTTP/1.0" : Str) [] (by decide)).2
      (by decide) (by decide) (by decide) (by decide)⟩

/-- C17: after a request with at least three fields that declares no body to the handler
(it is not a `POST` on `/files/` with a located `Content-Length` line) and is not
taken as asking to close, the session goes on as a session of its
own on the rest of the stream, with the file system unchanged: the writes are the
writes for the first request alone followed by the writes for the rest alone.  With
a second request as the rest, these are the two responses, each as the request
produces it alone. -/
theorem keep_alive {σ : Type} (env : Env σ) (st : σ) (first : Str) (more : List Str)
    (rest : Str)
    (hfirst : isLine first = true) (hne : first ≠ ("\r\n" : Str))
    (hmore : ∀ l ∈ more, isLine l = true ∧ l ≠ ("\r\n" : Str))
    (h3 : 3 ≤ (fields first).length)
    (hbody : readsBody (first :: more) = false)
    (hclose : (toLower (getHeader ("Connection" : Str) (first :: more)) == ("close" : Str))
      = false) :
    handleConn env st (first ++ (more.flatten ++ (("\r\n" : Str) ++ rest))) =
      { out := (handleConn env st (first ++ (more.flatten ++ ("\r\n" : Str)))).out
          ++ (handleConn env st rest).out,
        store := (handleConn env st rest).store,
        unread := (handleConn env st rest).unread,
        exit := (handleConn env st rest).exit } := by
  have hls : ∀ l ∈ first :: more, isLine l = true ∧ l ≠ ("\r\n" : Str) := by
    intro l hl
    rcases List.mem_cons.1 hl with rfl | h
    · exact ⟨hfirst, hne⟩
    · exact hmore l h
  have hread := readLines_lines (first :: more) hls rest []
  rw [List.flatten_cons, List.append_assoc] at hread
  have hread0 := readLines_lines (first :: more) hls [] []
  rw [List.flatten_cons, List.append_assoc, List.append_nil] at hread0
  have h3b : 3 ≤ (fields ((first :: more).headD [])).length := by simpa using h3
  have hs : ∀ r, serveRequest env st (first :: more) r =
      { out := (serveRequest env st (first :: more) []).out, store := st, rest := r,
        flow := Flow.next } := by
    intro r
    have := serveRequest_bodyless env st (first :: more) r h3b hbody
    rw [hclose] at this
    exact this
  rw [List.nil_append] at hread hread0
  have hflow : ∀ r, (serveRequest env st (first :: more) r).flow = Flow.next :=
    fun r => by rw [hs r]
  have hstore : ∀ r, (serveRequest env st (first :: more) r).store = st :=
    fun r => by rw [hs r]
  have hrest : ∀ r, (serveRequest env st (first :: more) r).rest = r :=
    fun r => by rw [hs r]
  have hout : (serveRequest env st (first :: more) rest).out =
      (serveRequest env st (first :: more) []).out := by rw [hs rest]
  have hne2 : ¬ (first :: more = []) := by simp
  have e0 : handleConn env st (first ++ (more.flatten ++ ("\r\n" : Str))) =
      { out := (serveRequest env st (first :: more) []).out ++ [], store := st, unread := [],
        exit := Exit.returned } := by
    rw [handleConn_step, hread0]
    simp only [hne2, if_false, hflow, hstore, hrest, handleConn_nil]
  rw [e0, handleConn_step, hread]
  simp only [hne2, if_false, hflow, hstore, hrest, hout, List.append_nil]

/-- Witness of C17: an echo request followed by a user-agent request on one stream. -/
theorem keep_alive_witness :
    readsBody [("GET /echo/a HTTP/1.1\r\n" : Str), ("Host: x\r\n" : Str)] = false ∧
    handleConn demoEnv []
      (("GET /echo/a HTTP/1.1\r\n" : Str) ++ (([("Host: x\r\n" : Str)] : List Str).flatten ++
        (("\r\n" : Str) ++ ("GET /user-agent HTTP/1.1\r\nUser-Agent: c\r\n\r\n" : Str)))) =
      { out := (handleConn demoEnv []
            (("GET /echo/a HTTP/1.1\r\n" : Str) ++ (([("Host: x\r\n" : Str)] : List Str).flatten
              ++ ("\r\n" : Str)))).out
          ++ (handleConn demoEnv []
            ("GET /user-agent HTTP/1.1\r\nUser-Agent: c\r\n\r\n" : Str)).out,
        store := [], unread := [], exit := Exit.returned } ∧
    (handleConn demoEnv []
      (("GET /echo/a HTTP/1.1\r\n" : Str) ++ (([("Host: x\r\n" : Str)] : List Str).flatten ++
        (("\r\n" : Str) ++ ("GET /user-agent HTTP/1.1\r\nUser-Agent: c\r\n\r\n" : Str))))).out =
      [("HTTP/1.1 200 OK\r\n" : Str), ("Content-Type: text/plain\r\n" : Str),
        ("Content-Length: 1\r\n\r\n" : Str), ("a" : Str),
        ("HTTP/1.1 200 OK\r\n" : Str), ("Content-Type: text/plain\r\n" : Str),
        ("Content-Length: 1\r\n\r\n" : Str), ("c" : Str)] :=
  ⟨by decide,
   keep_alive demoEnv [] ("GET /echo/a HTTP/1.1\r\n" : Str) [("Host: x\r\n" : Str)]
     ("GET /user-agent HTTP/1.1\r\nUser-Agent: c\r\n\r\n" : Str)
     (by decide) (by decide) (by decide) (by decide) (by decide) (by decide),
   by decide⟩

/-- C18 (fails on the code): a `PUT` on `/files/a`, a request line with three fields, is
answered with nothing at all: no write, and the loop goes on to read the next
request.  When compression fails, the echo branch writes two status lines, 500 and
then 200. -/
theorem files_other_method_unanswered :
    handleConn demoEnv [] ("PUT /files/a HTTP/1.1\r\nHost: x\r\n\r\n" : Str) =
      { out := [], store := [], unread := [], exit := Exit.returned } ∧
    (fields ("PUT /files/a HTTP/1.1\r\n" : Str)).length = 3 ∧
    (handleConn (mapEnv ("/tmp" : Str) (fun _ => none)) []
      ("GET /echo/a HTTP/1.1\r\nAccept-Encoding: gzip\r\n\r\n" : Str)).out =
      [("HTTP/1.1 500 Internal Server Error\r\n\r\n" : Str), ("HTTP/1.1 200 OK\r\n" : Str),
        ("Content-Type: text/plain\r\n" : Str), ("Content-Encoding: gzip\r\n" : Str),
        ("Content-Length: 0\r\n\r\n" : Str), []] := by
  decide

/-- C19 (fails on the code): `Content-Length: -1` parses as the integer -1, and creating
the body buffer with that length panics; no response is written. -/
theorem negative_content_length_panics :
    atoi ("-1" : Str) = some (-1) ∧
    handleConn demoEnv [] ("POST /files/a HTTP/1.1\r\nContent-Length: -1\r\n\r\n" : Str) =
      { out := [], store := [], unread := [], exit := Exit.panicked } := by
  decide

/-- C20: when no line contains the name, `getHeader` returns the empty string; and when
the search reports index `i` as found, there is a line at index `i` and it contains
the name. -/
theorem getHeader_no_false_positive (header : Str) (contents : List Str) :
    ((∀ l ∈ contents, contains l header = false) → getHeader header contents = []) ∧
    (∀ i, binarySearchFunc contents header cmpContains = (i, true) →
      ∃ line, contents[i]? = some line ∧ contains line header = true) := by
  constructor
  · exact getHeader_absent header contents
  · intro i hi
    have hfound : (binarySearchFunc contents header cmpContains).2 = true := by rw [hi]
    obtain ⟨e, he, hcmp⟩ := binarySearchFunc_found contents header cmpContains hfound
    rw [hi] at he
    refine ⟨e, he, ?_⟩
    unfold cmpContains at hcmp
    split at hcmp
    · assumption
    · simp at hcmp

/-- Witness of C20: `User-Agent` is looked up in a request without it, and `Host` is
found at index 1. -/
theorem getHeader_no_false_positive_witness :
    getHeader ("User-Agent" : Str) [("GET / HTTP/1.1\r\n" : Str), ("Host: x\r\n" : Str)] = [] ∧
    (∃ line, ([("GET / HTTP/1.1\r\n" : Str), ("Host: x\r\n" : Str)] : List Str)[1]? = some line
      ∧ contains line ("Host" : Str) = true) :=
  ⟨(getHeader_no_false_positive ("User-Agent" : Str)
      [("GET / HTTP/1.1\r\n" : Str), ("Host: x\r\n" : Str)]).1 (by decide),
   (getHeader_no_false_positive ("Host" : Str)
      [("GET / HTTP/1.1\r\n" : Str), ("Host: x\r\n" : Str)]).2 1 (by decide)⟩

/-! ## Further properties of the handler, continued -/

/-- A POST on `/files/` whose located `Content-Length` value parses as a number that
is not negative never panics: it is answered 201 Created or 500 Internal Server
Error. -/
theorem post_nonnegative_completes {σ : Type} (env : Env σ) (st : σ) (contents : List Str)
    (reader name v : Str) (more : List Str) (i : Nat) (value : Str) (n : Int)
    (hpost : fields (contents.headD []) =
      ("POST" : Str) :: (("/files/" : Str) ++ name) :: v :: more)
    (hfound : binarySearchFunc contents ("Content-Length" : Str) cmpContains = (i, true))
    (hvalue : (fields (contents.getD i []))[1]? = some value)
    (hparse : atoi value = some n) (hn : 0 ≤ n) :
    (serveRequest env st contents reader).flow ≠ Flow.panic ∧
    ((serveRequest env st contents reader).out =
        [v ++ (" 201 Created\r\n\r\n" : Str)]
          ++ (if toLower (getHeader ("Connection" : Str) contents) == ("close" : Str)
              then [("Connection: close\r\n" : Str)] else []) ∨
      (serveRequest env st contents reader).out =
        [v ++ (" 500 Internal Server Error\r\n\r\n" : Str)]) := by
  have hp := files_path name
  have hpre := hasPrefix_append ("/files/" : Str) name
  have hsplit := split_files name
  have hpg : ¬ (("POST" : Str) = ("GET" : Str)) := by decide
  have hn2 : ¬ (n < 0) := by omega
  have hl : ¬ (more.length + 1 + 1 + 1 < 3) := by omega
  unfold serveRequest
  simp only [hpost, List.getD_cons_zero, List.getD_cons_succ, hp.1, hp.2.1, hp.2.2, hpre,
    hsplit, List.length_cons, hl, if_false]
  unfold serveFiles
  simp only [hpg, if_false, hfound, hvalue, hparse, hn2, Bool.not_true, Bool.false_eq_true,
    if_true]
  split
  · constructor
    · split <;> simp
    · right; simp
  · constructor
    · split <;> simp
    · left; simp

/-- Witness: `Content-Length: 0`. -/
theorem post_nonnegative_completes_witness :
    atoi ("0" : Str) = some 0 ∧
    ((serveRequest demoEnv []
        [("POST /files/a HTTP/1.1\r\n" : Str), ("Content-Length: 0\r\n" : Str)] []).flow
        ≠ Flow.panic ∧
     ((serveRequest demoEnv []
        [("POST /files/a HTTP/1.1\r\n" : Str), ("Content-Length: 0\r\n" : Str)] []).out =
        [("HTTP/1.1" : Str) ++ (" 201 Created\r\n\r\n" : Str)]
          ++ (if toLower (getHeader ("Connection" : Str)
                [("POST /files/a HTTP/1.1\r\n" : Str), ("Content-Length: 0\r\n" : Str)])
                == ("close" : Str)
              then [("Connection: close\r\n" : Str)] else []) ∨
      (serveRequest demoEnv []
        [("POST /files/a HTTP/1.1\r\n" : Str), ("Content-Length: 0\r\n" : Str)] []).out =
        [("HTTP/1.1" : Str) ++ (" 500 Internal Server Error\r\n\r\n" : Str)])) :=
  ⟨by decide,
   post_nonnegative_completes demoEnv []
     [("POST /files/a HTTP/1.1\r\n" : Str), ("Content-Length: 0\r\n" : Str)] []
     ("a" : Str) ("HTTP/1.1" : Str) [] 1 ("0" : Str) 0
     (by decide) (by decide) (by decide) (by decide) (by decide)⟩

/-- Outside the `/files/` branch every request with at least three fields is answered:
the writes are not empty and the first one starts with the version token of the
request followed by a blank. -/
theorem answered_outside_files {σ : Type} (env : Env σ) (st : σ) (contents : List Str)
    (reader : Str) (h3 : 3 ≤ (fields (contents.headD [])).length)
    (hfiles : hasPrefix ((fields (contents.headD [])).getD 1 []) ("/files/" : Str) = false) :
    ∃ tail later, (serveRequest env st contents reader).out =
      ((fields (contents.headD [])).getD 2 [] ++ ' ' :: tail) :: later := by
  have hl : ¬ ((fields (contents.headD [])).length < 3) := by omega
  unfold serveRequest
  simp only [hl, if_false, hfiles, Bool.false_eq_true]
  split
  · exact ⟨_, _, rfl⟩
  · split
    · rename_i hecho
      obtain ⟨s, hs⟩ := split_index_of_hasPrefix _ _ hecho
      rw [hs, split_echo]
      simp only []
      split
      · split
        · exact ⟨_, _, rfl⟩
        · exact ⟨_, _, rfl⟩
      · exact ⟨_, _, rfl⟩
    · split
      · split
        · exact ⟨_, _, rfl⟩
        · exact ⟨_, _, rfl⟩
      · exact ⟨_, _, rfl⟩

/-- Witness: an `OPTIONS` request on an unknown path. -/
theorem answered_outside_files_witness :
    ∃ tail later, (serveRequest demoEnv []
        [("OPTIONS /nowhere HTTP/1.0\r\n" : Str)] []).out =
      ((fields (([("OPTIONS /nowhere HTTP/1.0\r\n" : Str)] : List Str).headD [])).getD 2 []
        ++ ' ' :: tail) :: later :=
  answered_outside_files demoEnv [] [("OPTIONS /nowhere HTTP/1.0\r\n" : Str)] []
    (by decide) (by decide)

end GoHttp
